import Mathlib

/-!
# Boundary-layer viewer (src/src/App.jsx): data pipeline

A shallow embedding of the pipeline inside `BoundaryLayerSimulation`:
the load handler (CSV parsing, the two axis sets, the initial selection),
`getCurrentPoints`, `currentRe`, and the `pathData` computation of the
profile renderer, followed by theorems about them.

Number model.  A JavaScript value that can sit in a record field is
`undefined` (a destructured column that is absent) or a Number.  Numbers are
`NaN`, the two infinities, or a finite double, which is represented by the
rational it denotes; the sign of zero is not represented.  The arithmetic
that produces a displayed value (`+`, `-`, `*`, `/` in the pixel mapping and
in the Reynolds number) rounds its exact result to the nearest double
(`roundDouble`), overflowing to an infinity.  Where only the sign of a
difference or its comparison with `epsilon` is used (the sort comparators
and the filter of `getCurrentPoints`) the difference is taken exactly
(`Value.sub`): rounding keeps the sign of a difference of two doubles.  The
literals `0.5` and `4.5` are doubles; `0.4` is the double nearest to `2 / 5`;
`epsilon` is the rational `1e-9`.
-/

namespace BoundaryLayer

/-! ## Values and arithmetic -/

/-- A JavaScript value as it occurs in a record field or a selection:
`undefined`, `NaN`, a finite number, or an infinity (`inf true` is
`-Infinity`, `inf false` is `Infinity`). -/
inductive Value where
  | undefined
  | nan
  | num (q : ℚ)
  | inf (neg : Bool)
  deriving DecidableEq

namespace Value

/-- The `ToNumber` conversion applied by the arithmetic and relational
operators: `undefined` becomes `NaN`, a Number is unchanged. -/
def toNumber : Value → Value
  | undefined => nan
  | v => v

/-- The exact difference `a - b`, before any rounding. -/
def sub (a b : Value) : Value :=
  match toNumber a, toNumber b with
  | num p, num q => num (p - q)
  | num _, inf s => inf (!s)
  | inf s, num _ => inf s
  | inf s, inf t => if s = t then nan else inf s
  | _, _ => nan

/-- The integer `e` with `2 ^ e <= a < 2 ^ (e + 1)`, for a positive
rational `a`. -/
def floorLog2 (a : ℚ) : Int :=
  let e0 : Int := (Nat.log2 a.num.natAbs : Int) - (Nat.log2 a.den : Int)
  if a < (2 : ℚ) ^ e0 then e0 - 1 else e0

/-- The integer nearest to `m`, the even one of the two when `m` lies
halfway. -/
def roundHalfEven (m : ℚ) : Int :=
  let f := ⌊m⌋
  let d := m - f
  if d < 1 / 2 then f
  else if 1 / 2 < d then f + 1
  else if f % 2 = 0 then f else f + 1

/-- The double nearest to the exact result `q` (IEEE 754 binary64, round to
nearest, ties to even): 53 significant bits, exponents down to the
subnormal range, and an infinity once the rounded magnitude reaches
`2 ^ 1024`. -/
def roundDouble (q : ℚ) : Value :=
  if q = 0 then num 0
  else
    let a := |q|
    let e := max (floorLog2 a) (-1022)
    let ulp : ℚ := (2 : ℚ) ^ (e - 52)
    let v : ℚ := (roundHalfEven (a / ulp) : ℚ) * ulp
    if (2 : ℚ) ^ (1024 : Int) ≤ v then inf (decide (q < 0))
    else num (if q < 0 then -v else v)

/-- The Number an operation returns for the exact result `v`. -/
def rounded : Value → Value
  | num q => roundDouble q
  | v => v

/-- `a - b` as a Number. -/
def minus (a b : Value) : Value := rounded (sub a b)

/-- `a + b`. -/
def add (a b : Value) : Value :=
  rounded
    (match toNumber a, toNumber b with
      | num p, num q => num (p + q)
      | num _, inf s => inf s
      | inf s, num _ => inf s
      | inf s, inf t => if s = t then inf s else nan
      | _, _ => nan)

/-- `a * b`. -/
def mul (a b : Value) : Value :=
  rounded
    (match toNumber a, toNumber b with
      | num p, num q => num (p * q)
      | num p, inf s => if p = 0 then nan else inf (xor s (decide (p < 0)))
      | inf s, num q => if q = 0 then nan else inf (xor s (decide (q < 0)))
      | inf s, inf t => inf (xor s t)
      | _, _ => nan)

/-- `a / b`.  A zero divisor is taken as `+0`. -/
def div (a b : Value) : Value :=
  rounded
    (match toNumber a, toNumber b with
      | num p, num q =>
          if q = 0 then (if p = 0 then nan else inf (decide (p < 0))) else num (p / q)
      | num _, inf _ => num 0
      | inf s, num q => inf (xor s (decide (q < 0)))
      | inf _, inf _ => nan
      | _, _ => nan)

/-- `Math.abs(a)`. -/
def abs (a : Value) : Value :=
  match toNumber a with
  | num p => num |p|
  | inf _ => inf false
  | _ => nan

/-- `a < b`: false as soon as one side converts to `NaN`. -/
def lt (a b : Value) : Bool :=
  match toNumber a, toNumber b with
  | num p, num q => decide (p < q)
  | num _, inf s => !s
  | inf s, num _ => s
  | inf s, inf t => s && !t
  | _, _ => false

/-- `a <= b`: false as soon as one side converts to `NaN`. -/
def le (a b : Value) : Bool :=
  match toNumber a, toNumber b with
  | num p, num q => decide (p ≤ q)
  | num _, inf s => !s
  | inf s, num _ => s
  | inf s, inf t => s || !t
  | _, _ => false

/-- `a >= b`. -/
def ge (a b : Value) : Bool := le b a

/-- `a > b`. -/
def gt (a b : Value) : Bool := lt b a

/-- The value is a Number other than `NaN` (so it is not `undefined`
either): comparisons with it are meaningful. -/
def isNumber : Value → Bool
  | num _ => true
  | inf _ => true
  | _ => false

/-- The value is a finite Number (`Number.isFinite`). -/
def isFinite : Value → Bool
  | num _ => true
  | _ => false

end Value

open Value

/-! ## Strings -/

/-- Code points removed by `String.prototype.trim`: the ECMAScript
WhiteSpace and LineTerminator characters. -/
def isTrimChar (c : Char) : Bool :=
  let n := c.toNat
  n = 0x09 || n = 0x0A || n = 0x0B || n = 0x0C || n = 0x0D || n = 0x20 ||
  n = 0xA0 || n = 0x1680 || (0x2000 ≤ n && n ≤ 0x200A) || n = 0x2028 ||
  n = 0x2029 || n = 0x202F || n = 0x205F || n = 0x3000 || n = 0xFEFF

/-- `s.trim()`. -/
def jsTrim (s : String) : String :=
  String.mk ((s.toList.dropWhile isTrimChar).reverse.dropWhile isTrimChar).reverse

/-- Pieces of a character sequence between occurrences of `sep`; there is
always at least one piece. -/
def splitChars (sep : Char) : List Char → List (List Char)
  | [] => [[]]
  | c :: cs =>
    if c = sep then [] :: splitChars sep cs
    else
      match splitChars sep cs with
      | [] => [[c]]
      | piece :: pieces => (c :: piece) :: pieces

/-- `s.split(sep)` for a one-character separator. -/
def jsSplit (sep : Char) (s : String) : List String :=
  (splitChars sep s.toList).map String.mk

/-- `parts.join(sep)`. -/
def jsJoin (sep : String) : List String → String
  | [] => ""
  | [a] => a
  | a :: b :: rest => a ++ sep ++ jsJoin sep (b :: rest)

/-! ## Records and the load handler (lines 24-61) -/

/-- One parsed row: `{ nu_val, u_inf, x, re_x, delta99 }`. -/
structure Point where
  nu_val : Value
  u_inf : Value
  x : Value
  re_x : Value
  delta99 : Value
  deriving DecidableEq

/-- `set.add(v)` on a `Set` kept as the list of its members in insertion
order; membership is SameValueZero, which on `Value` is equality (`NaN` is
found, and there is a single zero). -/
def setAdd (s : List Value) (v : Value) : List Value :=
  if v ∈ s then s else s ++ [v]

/-- `arr[i]` where a missing element reads as `undefined`. -/
def jsIndex (arr : List Value) (i : Nat) : Value :=
  arr.getD i Value.undefined

/-- The three accumulators of the row loop. -/
structure Parsed where
  allPoints : List Point
  uniqueNu : List Value
  uniqueUInf : List Value

/-- Body of `rows.forEach(row => ...)` (lines 30-37).  `toNum` is the
`Number` conversion of a field text. -/
def parseRow (toNum : String → Value) (acc : Parsed) (row : String) : Parsed :=
  if jsTrim row ≠ "" then
    let fields := (jsSplit ',' row).map toNum
    let nu_val := jsIndex fields 0
    let u_inf := jsIndex fields 1
    let x := jsIndex fields 2
    let re_x := jsIndex fields 3
    let delta99 := jsIndex fields 4
    { allPoints := acc.allPoints ++ [⟨nu_val, u_inf, x, re_x, delta99⟩],
      uniqueNu := setAdd acc.uniqueNu nu_val,
      uniqueUInf := setAdd acc.uniqueUInf u_inf }
  else acc

/-- `text.split('\n').slice(1)` (line 25). -/
def dataRows (text : String) : List String :=
  (jsSplit '\n' text).drop 1

/-- Lines 25-37: the rows after the header folded through `parseRow`. -/
def parseText (toNum : String → Value) (text : String) : Parsed :=
  (dataRows text).foldl (parseRow toNum) ⟨[], [], []⟩

/-! ## Array.prototype.sort -/

/-- The comparison `Array.prototype.sort` derives from a user comparator
(SortCompare): `undefined` elements order after everything else without the
comparator being called, and a comparator result that converts to `NaN`
counts as `+0`. -/
def sortCompare {α : Type} (isUndef : α → Bool) (comparefn : α → α → Value)
    (a b : α) : Value :=
  if isUndef a && isUndef b then num 0
  else if isUndef a then num 1
  else if isUndef b then num (-1)
  else
    match toNumber (comparefn a b) with
    | nan => num 0
    | v => v

/-- Insert `a` in front of the first element it does not order after. -/
def insertSorted {α : Type} (cmp : α → α → Value) (a : α) : List α → List α
  | [] => [a]
  | b :: l => if Value.gt (cmp a b) (num 0) then b :: insertSorted cmp a l else a :: b :: l

/-- `arr.sort(comparefn)` as a stable insertion sort driven by `sortCompare`.
The language fixes the result (sorted and stable) whenever the comparator is
a consistent ordering of the elements, which requires that it never returns
`NaN`.  When it does return `NaN` for some pair the order is left to the
engine, and an engine may order the elements differently from this
function.  What is proved below about the order of a result is proved under
hypotheses that keep every comparison from returning `NaN` (finite `x`, or
distinct numeric axis entries).  For keys that are not numbers the theorems
state facts that hold of every rearrangement, or concern rows listed in an
order that no comparison contradicts, the order a run-detecting or
insertion-based engine leaves untouched. -/
def jsSort {α : Type} (isUndef : α → Bool) (comparefn : α → α → Value) : List α → List α
  | [] => []
  | a :: l => insertSorted (sortCompare isUndef comparefn) a (jsSort isUndef comparefn l)

/-- `Array.from(set).sort((a, b) => a - b)` (lines 39-40). -/
def sortNumeric (vs : List Value) : List Value :=
  jsSort (fun v => decide (v = Value.undefined)) (fun a b => Value.sub a b) vs

/-! ## Component state -/

/-- The `useState` cells of `BoundaryLayerSimulation` (lines 6-13); `none`
is `null`. -/
structure State where
  nuValues : List Value
  uInfValues : List Value
  nu : Option Value
  uInf : Option Value
  data : Option (List Point)
  loading : Bool
  error : Option String

/-- The state before the fetch settles. -/
def initialState : State :=
  { nuValues := [], uInfValues := [], nu := none, uInf := none, data := none,
    loading := true, error := none }

/-- The `.then(text => ...)` handler (lines 24-56). -/
def loadSucceeded (toNum : String → Value) (text : String) (s : State) : State :=
  let parsed := parseText toNum text
  let sortedNu := sortNumeric parsed.uniqueNu
  let sortedUInf := sortNumeric parsed.uniqueUInf
  { s with
    nuValues := sortedNu
    uInfValues := sortedUInf
    nu := some (jsIndex sortedNu 0)
    uInf := some (jsIndex sortedUInf 0)
    data := some parsed.allPoints
    loading := false }

/-- The `.catch(error => ...)` handler (lines 57-61). -/
def loadFailed (message : String) (s : State) : State :=
  { s with error := some message, loading := false }

/-- The slider handlers (lines 257 and 275): the selection becomes the axis
entry at the chosen index. -/
def selectNu (i : Nat) (s : State) : State :=
  { s with nu := some (jsIndex s.nuValues i) }

/-- See `selectNu`. -/
def selectUInf (i : Nat) (s : State) : State :=
  { s with uInf := some (jsIndex s.uInfValues i) }

/-! ## getCurrentPoints and currentRe (lines 64-96) -/

/-- The constant `epsilon = 1e-9` (line 68). -/
def epsilon : Value := num (1 / 10 ^ 9)

/-- The filter callback of lines 70-80. -/
def matchesSelection (nu uInf : Value) (point : Point) : Bool :=
  let nuMatch := Value.lt (Value.abs (Value.sub point.nu_val nu)) epsilon
  let uMatch := Value.lt (Value.abs (Value.sub point.u_inf uInf)) epsilon
  nuMatch && uMatch

/-- The function `getCurrentPoints` (lines 64-90). -/
def getCurrentPoints (s : State) : List Point :=
  match s.data, s.nu, s.uInf with
  | some data, some nu, some uInf =>
      jsSort (fun _ => false) (fun a b => Value.sub a.x b.x)
        (data.filter (matchesSelection nu uInf))
  | _, _, _ => []

/-- What `currentRe` holds: a Number, or the string `'N/A'`. -/
inductive ReValue where
  | na
  | number (v : Value)
  deriving DecidableEq

/-- Lines 94-96. -/
def currentRe (s : State) : ReValue :=
  let currentPoints := getCurrentPoints s
  let lastPoint :=
    if currentPoints.length > 0 then currentPoints.get? (currentPoints.length - 1) else none
  match lastPoint, s.nu, s.uInf with
  | some lastPoint, some nu, some uInf => ReValue.number (Value.div (Value.mul uInf lastPoint.x) nu)
  | _, _, _ => ReValue.na

/-! ## The profile renderer (lines 175-222) -/

/-- The letter that opens a path command. -/
inductive Marker where
  | M
  | L
  deriving DecidableEq

/-- One path command before it is turned into text: the letter and the two
pixel coordinates. -/
structure Command where
  marker : Marker
  x : Value
  y : Value
  deriving DecidableEq

/-- The pixel abscissa of line 194: `50 + ((point.x - 0.5) / 4.5) * 700`. -/
def scaleX (x : Value) : Value :=
  Value.add (num 50)
    (Value.mul (Value.div (Value.minus x (num (1 / 2))) (num (9 / 2))) (num 700))

/-- The pixel ordinate of line 196: `550 - (point.delta99 / 0.4) * 500`. -/
def scaleY (delta99 : Value) : Value :=
  Value.minus (num 550)
    (Value.mul (Value.div delta99 (roundDouble (2 / 5))) (num 500))

/-- The callback of `points.map((point, index) => ...)` (lines 190-197);
`none` is `null`.  For `index = 0` the test `index === 0` decides before
`points[index - 1]` is read. -/
def pathCommand (points : List Point) (point : Point) (index : Nat) : Option Command :=
  if Value.lt point.x (num (1 / 2)) then none
  else
    let x := scaleX point.x
    let y := scaleY point.delta99
    let prevX : Value :=
      match points.get? (index - 1) with
      | some prev => prev.x
      | none => Value.undefined
    some { marker := if index = 0 ∨ Value.lt prevX (num (1 / 2)) = true then Marker.M else Marker.L,
           x := x, y := y }

/-- The non-null results of the `map` of lines 190-198, in order. -/
def pathCommands (points : List Point) : List Command :=
  points.enum.filterMap (fun ip => pathCommand points ip.2 ip.1)

/-- The template literal of line 197; `numToString` is the Number-to-text
conversion. -/
def Command.render (numToString : Value → String) (c : Command) : String :=
  (match c.marker with
    | Marker.M => "M"
    | Marker.L => "L") ++ " " ++ numToString c.x ++ " " ++ numToString c.y

/-- The string `pathData` (lines 190-198). -/
def pathData (numToString : Value → String) (points : List Point) : String :=
  jsJoin " " ((pathCommands points).map (Command.render numToString))

/-- What the renderer returns: the "No data found ..." text element, or a
path element with its `d` attribute. -/
inductive Rendered where
  | noData
  | path (d : String)
  deriving DecidableEq

/-- The body of the renderer after `points` is computed (lines 177-221). -/
def renderPoints (numToString : Value → String) (points : List Point) : Rendered :=
  if points.length = 0 then Rendered.noData
  else
    let d := pathData numToString points
    if d = "" then Rendered.noData else Rendered.path d

/-- The renderer of lines 175-222. -/
def renderProfile (numToString : Value → String) (s : State) : Rendered :=
  renderPoints numToString (getCurrentPoints s)

/-- What the plot region shows (lines 103-238). -/
inductive PlotRegion where
  | loadingNotice
  | errorNotice (message : String)
  | plot (profile : Rendered)
  deriving DecidableEq

/-- The conditional of lines 103-238; an empty error message is falsy. -/
def plotRegion (numToString : Value → String) (s : State) : PlotRegion :=
  if s.loading then PlotRegion.loadingNotice
  else
    match s.error with
    | some message =>
        if message ≠ "" then PlotRegion.errorNotice message
        else PlotRegion.plot (renderProfile numToString s)
    | none => PlotRegion.plot (renderProfile numToString s)

/-- The guard of the controls block (line 245): whether the sliders are
rendered. -/
def controlsShown (s : State) : Bool :=
  !s.loading && decide (s.nuValues.length > 0) && decide (s.uInfValues.length > 0) &&
    s.nu.isSome && s.uInf.isSome

/-! ## Auxiliary views of the path computation -/

/-- The command for `point` when `prev` is the source point just before it
(`none` when `point` is the first): the callback of lines 190-197 with the
index and array lookups resolved. -/
def commandAfter (prev : Option Point) (point : Point) : Option Command :=
  if Value.lt point.x (num (1 / 2)) then none
  else
    some { marker :=
             match prev with
             | none => Marker.M
             | some q => if Value.lt q.x (num (1 / 2)) = true then Marker.M else Marker.L,
           x := scaleX point.x,
           y := scaleY point.delta99 }

/-- The commands of a run of points that follows `prev`. -/
def commandsAfter (prev : Option Point) : List Point → List Command
  | [] => []
  | p :: rest => (commandAfter prev p).toList ++ commandsAfter (some p) rest

/-- Follows the spec's words (section 4.4, the naive "connect all retained
points" mapper): the points with `x >= 0.5` in order, under the same linear
mapping, `M` on the first of them and `L` on every later one. -/
def naiveCommands (points : List Point) : List Command :=
  match points.filter (fun p => Value.ge p.x (num (1 / 2))) with
  | [] => []
  | p :: rest =>
    { marker := Marker.M, x := scaleX p.x, y := scaleY p.delta99 } ::
    rest.map (fun q => { marker := Marker.L, x := scaleX q.x, y := scaleY q.delta99 })

/-! ## Concrete inputs used below -/

/-- A record of the curve `(nu, uInf) = (1, 1)` with the given `x`, as the
row `1,1,x,0,0.1` gives it. -/
def pointAt (x : Value) : Point :=
  { nu_val := num 1, u_inf := num 1, x := x, re_x := num 0, delta99 := roundDouble (1 / 10) }

/-- A loaded state holding `data`, with the selection `(1, 1)`. -/
def loadedState (data : List Point) : State :=
  { nuValues := [num 1], uInfValues := [num 1], nu := some (num 1), uInf := some (num 1),
    data := some data, loading := false, error := none }

/-- Two rows of one curve, the first with an `x` column that is not a
number (as `Number('abc')` yields). -/
def nanCurve : List Point := [pointAt nan, pointAt (num 1)]

/-- Three rows of one curve, out of order and with a tie on `x`. -/
def tiedCurve : List Point :=
  [pointAt (num 2), { pointAt (num 1) with delta99 := roundDouble (1 / 5) }, pointAt (num 1)]

/-- The `Number` conversion on the field texts that occur in the example
datasets below; a text that is not a numeral, such as `abc`, gives `NaN`. -/
def demoNumber (field : String) : Value :=
  if field = "0" then num 0
  else if field = "1" then num 1
  else if field = "2" then num 2
  else if field = "1.0000000001" then num (1 + 1 / 10 ^ 10)
  else nan

/-- A dataset text whose first data row has a viscosity column that is not
a numeral. -/
def nanAxisText : String := "h\nabc,1,1,0,1\n1,1,1,0,1"

/-- A dataset text with two viscosities `1e-10` apart. -/
def closeAxisText : String := "h\n1,1,1,0,1\n1.0000000001,1,2,0,1"

/-- A dataset text with two viscosities, listed out of order, and one
velocity. -/
def plainText : String := "h\n2,1,1,0,1\n1,1,2,0,1\n2,1,2,0,1"

/-- Three rows of one curve: an `x` column that is not a number, a point
left of the plot domain, and a point inside it. -/
def nanClippedCurve : List Point := [pointAt nan, pointAt (num (1 / 4)), pointAt (num 1)]

/-- Four rows of one curve: `x = 2`, an `x` column that is not a number, a
point left of the plot domain, and `x = 5`. -/
def nanSplitCurve : List Point :=
  [pointAt (num 2), pointAt nan, pointAt (num (1 / 4)), pointAt (num 5)]

/-- A curve with one point left of the plot domain and two inside it. -/
def clippedCurve : List Point := [pointAt (num (1 / 4)), pointAt (num 1), pointAt (num 5)]

/-! ## Facts about values -/

theorem Value.lt_self (a : Value) : Value.lt a a = false := by
  cases a <;> simp [Value.lt, Value.toNumber]

theorem Value.le_of_lt_true {a b : Value} (h : Value.lt a b = true) : Value.le a b = true := by
  cases a <;> cases b <;> simp_all [Value.lt, Value.le, Value.toNumber]
  exact le_of_lt h

theorem Value.isNumber_of_le_left {a b : Value} (h : Value.le a b = true) :
    a.isNumber = true := by
  cases a <;> cases b <;> simp_all [Value.le, Value.toNumber, Value.isNumber]

theorem Value.isNumber_of_le_right {a b : Value} (h : Value.le a b = true) :
    b.isNumber = true := by
  cases a <;> cases b <;> simp_all [Value.le, Value.toNumber, Value.isNumber]

theorem Value.le_or_le {a b : Value} (ha : a.isNumber = true) (hb : b.isNumber = true) :
    Value.le a b = true ∨ Value.le b a = true := by
  cases a <;> cases b <;> simp_all [Value.le, Value.toNumber, Value.isNumber]
  · exact le_total _ _
  · rename_i s t; cases s <;> cases t <;> simp

theorem Value.le_chain {a b c : Value} (hab : Value.le a b = true) (hbc : Value.le b c = true) :
    Value.le a c = true := by
  cases a <;> cases b <;> cases c <;> simp_all [Value.le, Value.toNumber]
  · exact le_trans hab hbc
  · rename_i s t u; cases s <;> cases t <;> cases u <;> simp_all

theorem Value.not_lt_iff_le {a b : Value} (ha : a.isNumber = true) (hb : b.isNumber = true) :
    Value.lt b a = false ↔ Value.le a b = true := by
  cases a <;> cases b <;> simp_all [Value.le, Value.lt, Value.toNumber, Value.isNumber]
  rename_i s t; cases s <;> cases t <;> simp

theorem Value.lt_iff_le_ne {a b : Value} :
    Value.lt a b = true ↔ (Value.le a b = true ∧ a ≠ b) := by
  cases a <;> cases b <;> simp [Value.le, Value.lt, Value.toNumber]
  · exact lt_iff_le_and_ne
  · rename_i s t; cases s <;> cases t <;> simp

/-! ## Facts about the sort -/

theorem insertSorted_perm {α : Type} (cmp : α → α → Value) (a : α) (l : List α) :
    (insertSorted cmp a l).Perm (a :: l) := by
  induction l with
  | nil => simp [insertSorted]
  | cons b l ih =>
    unfold insertSorted
    split
    · exact (List.Perm.cons b ih).trans (List.Perm.swap a b l)
    · exact List.Perm.refl _

theorem jsSort_perm {α : Type} (isUndef : α → Bool) (comparefn : α → α → Value) (l : List α) :
    (jsSort isUndef comparefn l).Perm l := by
  induction l with
  | nil => simp [jsSort]
  | cons a l ih =>
    unfold jsSort
    exact (insertSorted_perm _ a _).trans (List.Perm.cons a ih)

theorem insertSorted_pairwise {α : Type} (cmp : α → α → Value) (r : α → α → Prop)
    (S : α → Prop)
    (hnot : ∀ a b, S a → S b → Value.gt (cmp a b) (num 0) = false → r a b)
    (hafter : ∀ a b, S a → S b → Value.gt (cmp a b) (num 0) = true → r b a)
    (htrans : ∀ a b c, S a → S b → S c → r a b → r b c → r a c)
    (a : α) (l : List α) (ha : S a) (hl : ∀ b ∈ l, S b) (hp : l.Pairwise r) :
    (insertSorted cmp a l).Pairwise r := by
  induction l with
  | nil => simp [insertSorted]
  | cons b l ih =>
    have hb : S b := hl b (List.mem_cons_self _ _)
    have hl2 : ∀ c ∈ l, S c := fun c hc => hl c (List.mem_cons_of_mem _ hc)
    rw [List.pairwise_cons] at hp
    unfold insertSorted
    split
    · rename_i hgt
      rw [List.pairwise_cons]
      refine ⟨?_, ih hl2 hp.2⟩
      intro c hc
      have hc2 : c ∈ a :: l := (insertSorted_perm cmp a l).subset hc
      rcases List.mem_cons.mp hc2 with rfl | hc3
      · exact hafter _ _ ha hb hgt
      · exact hp.1 c hc3
    · rename_i hgt
      have hgt2 : Value.gt (cmp a b) (num 0) = false := by simpa using hgt
      have hab : r a b := hnot a b ha hb hgt2
      rw [List.pairwise_cons]
      refine ⟨?_, List.pairwise_cons.mpr hp⟩
      intro c hc
      rcases List.mem_cons.mp hc with rfl | hc3
      · exact hab
      · exact htrans a b c ha hb (hl2 c hc3) hab (hp.1 c hc3)

theorem jsSort_pairwise {α : Type} (isUndef : α → Bool) (comparefn : α → α → Value)
    (r : α → α → Prop) (S : α → Prop)
    (hnot : ∀ a b, S a → S b →
      Value.gt (sortCompare isUndef comparefn a b) (num 0) = false → r a b)
    (hafter : ∀ a b, S a → S b →
      Value.gt (sortCompare isUndef comparefn a b) (num 0) = true → r b a)
    (htrans : ∀ a b c, S a → S b → S c → r a b → r b c → r a c)
    (l : List α) (hl : ∀ b ∈ l, S b) :
    (jsSort isUndef comparefn l).Pairwise r := by
  induction l with
  | nil => simp [jsSort]
  | cons a l ih =>
    unfold jsSort
    have hl2 : ∀ c ∈ l, S c := fun c hc => hl c (List.mem_cons_of_mem _ hc)
    refine insertSorted_pairwise _ r S hnot hafter htrans a _ (hl a (List.mem_cons_self _ _)) ?_
      (ih hl2)
    intro b hb
    exact hl2 b ((jsSort_perm isUndef comparefn l).subset hb)

theorem insertSorted_filter {α : Type} (cmp : α → α → Value) (P : α → Bool) (a : α)
    (l : List α)
    (h : ∀ b ∈ l, Value.gt (cmp a b) (num 0) = true → P a = true → P b = false) :
    (insertSorted cmp a l).filter P = (a :: l).filter P := by
  induction l with
  | nil => simp [insertSorted]
  | cons b l ih =>
    have ih2 := ih (fun c hc => h c (List.mem_cons_of_mem _ hc))
    unfold insertSorted
    split
    · rename_i hgt
      have hb := h b (List.mem_cons_self _ _) hgt
      cases hPa : P a
      · simp [List.filter_cons, hPa] at ih2 ⊢
        rw [ih2]
      · have hPb := hb hPa
        simp [List.filter_cons, hPa, hPb] at ih2 ⊢
        exact ih2
    · rfl

theorem jsSort_filter {α : Type} (isUndef : α → Bool) (comparefn : α → α → Value)
    (P : α → Bool)
    (h : ∀ a b, Value.gt (sortCompare isUndef comparefn a b) (num 0) = true →
      P a = true → P b = false)
    (l : List α) :
    (jsSort isUndef comparefn l).filter P = l.filter P := by
  induction l with
  | nil => simp [jsSort]
  | cons a l ih =>
    unfold jsSort
    rw [insertSorted_filter _ P a _ (fun b _ => h a b)]
    simp [List.filter_cons, ih]

/-- The sign test of the sort on a numeric comparator `(a, b) => a - b`:
`a` orders after `b` exactly when `b < a`. -/
theorem gt_sub_zero (u v : Value) :
    Value.gt (match toNumber (Value.sub u v) with
      | nan => num 0
      | w => w) (num 0) = Value.lt v u := by
  cases u <;> cases v <;> simp [Value.sub, Value.gt, Value.lt, Value.toNumber]
  rename_i s t
  cases s <;> cases t <;> simp

theorem pointCompare_gt (a b : Point) :
    Value.gt (sortCompare (fun _ => false) (fun a b : Point => Value.sub a.x b.x) a b) (num 0)
      = Value.lt b.x a.x := by
  simp only [sortCompare, Bool.false_and, Bool.false_eq_true, if_false]
  exact gt_sub_zero a.x b.x

theorem chain_le_isNumber {α : Type} (key : α → Value) :
    ∀ l : List α, l.Chain' (fun a b => Value.le (key a) (key b) = true) → 2 ≤ l.length →
      ∀ p ∈ l, (key p).isNumber = true
  | [], _, h2 => by simp at h2
  | [_], _, h2 => by simp at h2
  | a :: b :: rest, hc, _ => by
    intro p hp
    rw [List.chain'_cons] at hc
    rcases List.mem_cons.mp hp with rfl | hp2
    · exact Value.isNumber_of_le_left hc.1
    · cases rest with
      | nil =>
        rcases List.mem_singleton.mp hp2 with rfl
        exact Value.isNumber_of_le_right hc.1
      | cons c rest2 =>
        exact chain_le_isNumber key (b :: c :: rest2) hc.2 (by simp) p hp2

/-! ## CurveSelector -/

theorem getCurrentPoints_loaded (s : State) (data : List Point) (nu uInf : Value)
    (hdata : s.data = some data) (hnu : s.nu = some nu) (hu : s.uInf = some uInf) :
    getCurrentPoints s = jsSort (fun _ => false) (fun a b : Point => Value.sub a.x b.x)
      (data.filter (matchesSelection nu uInf)) := by
  simp [getCurrentPoints, hdata, hnu, hu]

theorem selection_sorted (data : List Point) (nu uInf : Value)
    (hx : ∀ p ∈ data, matchesSelection nu uInf p = true → p.x.isNumber = true) :
    (jsSort (fun _ => false) (fun a b : Point => Value.sub a.x b.x)
      (data.filter (matchesSelection nu uInf))).Pairwise
        (fun a b => Value.le a.x b.x = true) := by
  apply jsSort_pairwise _ _ (fun a b : Point => Value.le a.x b.x = true)
    (fun p : Point => p.x.isNumber = true)
  · intro a b ha hb h
    rw [pointCompare_gt] at h
    exact (Value.not_lt_iff_le ha hb).mp h
  · intro a b _ _ h
    rw [pointCompare_gt] at h
    exact Value.le_of_lt_true h
  · intro a b c _ _ _ hab hbc
    exact Value.le_chain hab hbc
  · intro p hp
    rw [List.mem_filter] at hp
    exact hx p hp.1 hp.2

theorem Value.isNumber_of_isFinite {v : Value} (h : v.isFinite = true) :
    v.isNumber = true := by
  cases v <;> simp_all [Value.isFinite, Value.isNumber]

/-- C1 (as amended): for a loaded Dataset and any Selection, the result of
`getCurrentPoints` is a rearrangement of the matching records (each once,
nothing else); when the matching records all carry a finite `x`, its `x`
values are non-decreasing and records with equal `x` keep their Dataset
order, so that it is the stable sort by ascending `x` of the matching
records. -/
theorem getCurrentPoints_stable_sorted (s : State) (data : List Point) (nu uInf : Value)
    (hdata : s.data = some data) (hnu : s.nu = some nu) (hu : s.uInf = some uInf) :
    (getCurrentPoints s).Perm
        (data.filter (fun p =>
          Value.lt (Value.abs (Value.sub p.nu_val nu)) epsilon &&
            Value.lt (Value.abs (Value.sub p.u_inf uInf)) epsilon)) ∧
      ((∀ p ∈ data,
          (Value.lt (Value.abs (Value.sub p.nu_val nu)) epsilon &&
            Value.lt (Value.abs (Value.sub p.u_inf uInf)) epsilon) = true →
          p.x.isFinite = true) →
        (getCurrentPoints s).Pairwise (fun a b => Value.le a.x b.x = true) ∧
          ∀ c : Value,
            (getCurrentPoints s).filter (fun p => decide (p.x = c)) =
              (data.filter (fun p =>
                Value.lt (Value.abs (Value.sub p.nu_val nu)) epsilon &&
                  Value.lt (Value.abs (Value.sub p.u_inf uInf)) epsilon)).filter
                (fun p => decide (p.x = c))) := by
  rw [getCurrentPoints_loaded s data nu uInf hdata hnu hu]
  have hsel : (fun p : Point =>
      Value.lt (Value.abs (Value.sub p.nu_val nu)) epsilon &&
        Value.lt (Value.abs (Value.sub p.u_inf uInf)) epsilon) = matchesSelection nu uInf := by
    funext p; rfl
  rw [hsel]
  refine ⟨jsSort_perm _ _ _, ?_⟩
  intro hx
  refine ⟨selection_sorted data nu uInf
    (fun p hp hm => Value.isNumber_of_isFinite (hx p hp hm)), ?_⟩
  intro c
  apply jsSort_filter
  intro a b h ha
  rw [pointCompare_gt] at h
  have hac : a.x = c := by simpa using ha
  by_contra hb
  have hbc : b.x = c := by simpa using hb
  rw [hac, hbc, Value.lt_self] at h
  exact Bool.false_ne_true h

/-- Witness for C1: three matching rows, one out of order and two tied. -/
theorem getCurrentPoints_stable_sorted_witness :
    (∀ p ∈ tiedCurve,
        (Value.lt (Value.abs (Value.sub p.nu_val (num 1))) epsilon &&
          Value.lt (Value.abs (Value.sub p.u_inf (num 1))) epsilon) = true →
        p.x.isFinite = true) ∧
      (getCurrentPoints (loadedState tiedCurve)).Perm
        (tiedCurve.filter (fun p =>
          Value.lt (Value.abs (Value.sub p.nu_val (num 1))) epsilon &&
            Value.lt (Value.abs (Value.sub p.u_inf (num 1))) epsilon)) ∧
      (getCurrentPoints (loadedState tiedCurve)).Pairwise (fun a b => Value.le a.x b.x = true) ∧
      ∀ c : Value,
        (getCurrentPoints (loadedState tiedCurve)).filter (fun p => decide (p.x = c)) =
          (tiedCurve.filter (fun p =>
            Value.lt (Value.abs (Value.sub p.nu_val (num 1))) epsilon &&
              Value.lt (Value.abs (Value.sub p.u_inf (num 1))) epsilon)).filter
            (fun p => decide (p.x = c)) :=
  have hx : ∀ p ∈ tiedCurve,
      (Value.lt (Value.abs (Value.sub p.nu_val (num 1))) epsilon &&
        Value.lt (Value.abs (Value.sub p.u_inf (num 1))) epsilon) = true →
      p.x.isFinite = true := by
    intro p hp _
    simp [tiedCurve, pointAt] at hp
    rcases hp with rfl | rfl | rfl <;> rfl
  have h := getCurrentPoints_stable_sorted (loadedState tiedCurve) tiedCurve (num 1) (num 1)
    rfl rfl rfl
  ⟨hx, h.1, (h.2 hx).1, (h.2 hx).2⟩

/-- C1 fails as stated: with the two rows of `nanCurve` loaded and selected,
both rows are returned, and in no arrangement of them is `x` non-decreasing
from each element to the next. -/
theorem getCurrentPoints_nan_not_sorted :
    (getCurrentPoints (loadedState nanCurve)).Perm nanCurve ∧
      ∀ l : List Point, l.Perm nanCurve →
        ¬ l.Chain' (fun a b => Value.le a.x b.x = true) := by
  constructor
  · have h := (getCurrentPoints_loaded (loadedState nanCurve) nanCurve (num 1) (num 1)
      rfl rfl rfl)
    rw [h]
    refine (jsSort_perm _ _ _).trans ?_
    simp [nanCurve, pointAt, matchesSelection, Value.sub, Value.abs, Value.lt,
      Value.toNumber, epsilon]
  · intro l hl hc
    have hlen : l.length = 2 := by rw [hl.length_eq]; rfl
    have hmem : pointAt nan ∈ l := hl.symm.subset (by simp [nanCurve])
    have := chain_le_isNumber (fun p : Point => p.x) l hc (by omega) _ hmem
    simp [pointAt, Value.isNumber] at this

/-! ## DatasetParser -/

theorem parseRow_foldl_length (toNum : String → Value) (rows : List String) (acc : Parsed) :
    (rows.foldl (parseRow toNum) acc).allPoints.length =
      acc.allPoints.length + (rows.filter (fun row => decide (jsTrim row ≠ ""))).length := by
  induction rows generalizing acc with
  | nil => simp
  | cons row rows ih =>
    rw [List.foldl_cons, ih]
    by_cases h : jsTrim row = ""
    · simp [parseRow, h]
    · simp [parseRow, h, List.filter_cons]
      omega

theorem splitChars_ne_nil (sep : Char) (cs : List Char) : splitChars sep cs ≠ [] := by
  cases cs with
  | nil => simp [splitChars]
  | cons c cs =>
    unfold splitChars
    split
    · simp
    · split <;> simp

theorem splitChars_header (sep : Char) (header body : List Char) (h : sep ∉ header) :
    splitChars sep (header ++ sep :: body) = header :: splitChars sep body := by
  induction header with
  | nil => simp [splitChars]
  | cons c cs ih =>
    have hc : c ≠ sep := fun e => h (by simp [e])
    have hcs : sep ∉ cs := fun e => h (List.mem_cons_of_mem _ e)
    rw [List.cons_append, splitChars, if_neg hc, ih hcs]

theorem dataRows_header (header body : String) (h : '\n' ∉ header.toList) :
    dataRows (header ++ "\n" ++ body) = jsSplit '\n' body := by
  have e : (header ++ "\n" ++ body).toList = header.toList ++ '\n' :: body.toList := by
    simp [String.toList]
  unfold dataRows jsSplit
  rw [e, splitChars_header _ _ _ h]
  simp

/-- C5: whatever the `Number` conversion makes of the fields, the number of
records parsed from a text is the number of lines after the first whose
trimmed text is non-empty; and two texts that differ only in their first
line parse alike. -/
theorem parseText_record_count (toNum : String → Value) (text : String) :
    (parseText toNum text).allPoints.length =
        (((jsSplit '\n' text).drop 1).filter (fun row => decide (jsTrim row ≠ ""))).length ∧
      ∀ header₁ header₂ body : String,
        '\n' ∉ header₁.toList → '\n' ∉ header₂.toList →
        (parseText toNum (header₁ ++ "\n" ++ body)).allPoints =
          (parseText toNum (header₂ ++ "\n" ++ body)).allPoints := by
  constructor
  · unfold parseText dataRows
    rw [parseRow_foldl_length]
    simp
  · intro h₁ h₂ body hh₁ hh₂
    unfold parseText
    rw [dataRows_header h₁ body hh₁, dataRows_header h₂ body hh₂]

/-- Witness for C5: a text with a blank line, an unparsable row and a
trailing newline has two records, under either of two headers. -/
theorem parseText_record_count_witness :
    (parseText demoNumber "h\n\nabc,1,1,0,1\n1,1,1,0,1\n").allPoints.length = 2 ∧
      '\n' ∉ "nu,u".toList ∧ '\n' ∉ "".toList ∧
      (parseText demoNumber ("nu,u" ++ "\n" ++ "1,1,1,0,1")).allPoints =
        (parseText demoNumber ("" ++ "\n" ++ "1,1,1,0,1")).allPoints :=
  ⟨by
      rw [(parseText_record_count demoNumber "h\n\nabc,1,1,0,1\n1,1,1,0,1\n").1]
      simp [jsSplit, splitChars, jsTrim, isTrimChar],
    by decide, by decide,
    (parseText_record_count demoNumber "h").2 "nu,u" "" "1,1,1,0,1" (by decide) (by decide)⟩

/-! ## ParameterIndex -/

theorem mem_setAdd (s : List Value) (v w : Value) : w ∈ setAdd s v ↔ w ∈ s ∨ w = v := by
  unfold setAdd
  split
  · rename_i h
    constructor
    · exact Or.inl
    · rintro (h1 | rfl)
      · exact h1
      · exact h
  · simp

theorem setAdd_nodup (s : List Value) (v : Value) (h : s.Nodup) : (setAdd s v).Nodup := by
  unfold setAdd
  split
  · exact h
  · rename_i hv
    rw [List.nodup_append]
    refine ⟨h, List.nodup_singleton v, ?_⟩
    intro a ha hb
    rcases List.mem_singleton.mp hb with rfl
    exact hv ha

/-- What the row loop maintains: each set has no repeated member and holds
exactly the values of its column over the records pushed so far. -/
theorem parseRow_foldl_axes (toNum : String → Value) (rows : List String) (acc : Parsed)
    (h : acc.uniqueNu.Nodup ∧ acc.uniqueUInf.Nodup ∧
      (∀ v, v ∈ acc.uniqueNu ↔ ∃ p ∈ acc.allPoints, p.nu_val = v) ∧
      (∀ v, v ∈ acc.uniqueUInf ↔ ∃ p ∈ acc.allPoints, p.u_inf = v)) :
    (rows.foldl (parseRow toNum) acc).uniqueNu.Nodup ∧
      (rows.foldl (parseRow toNum) acc).uniqueUInf.Nodup ∧
      (∀ v, v ∈ (rows.foldl (parseRow toNum) acc).uniqueNu ↔
        ∃ p ∈ (rows.foldl (parseRow toNum) acc).allPoints, p.nu_val = v) ∧
      (∀ v, v ∈ (rows.foldl (parseRow toNum) acc).uniqueUInf ↔
        ∃ p ∈ (rows.foldl (parseRow toNum) acc).allPoints, p.u_inf = v) := by
  induction rows generalizing acc with
  | nil => simpa using h
  | cons row rows ih =>
    rw [List.foldl_cons]
    apply ih
    by_cases hb : jsTrim row = ""
    · simpa [parseRow, hb] using h
    · obtain ⟨h1, h2, h3, h4⟩ := h
      simp only [parseRow, hb, ne_eq, not_false_eq_true, if_true]
      refine ⟨setAdd_nodup _ _ h1, setAdd_nodup _ _ h2, ?_, ?_⟩
      · intro v
        rw [mem_setAdd, h3 v]
        simp only [List.mem_append, List.mem_singleton]
        constructor
        · rintro (⟨p, hp, rfl⟩ | rfl)
          · exact ⟨p, Or.inl hp, rfl⟩
          · exact ⟨_, Or.inr rfl, rfl⟩
        · rintro ⟨p, hp | rfl, rfl⟩
          · exact Or.inl ⟨p, hp, rfl⟩
          · exact Or.inr rfl
      · intro v
        rw [mem_setAdd, h4 v]
        simp only [List.mem_append, List.mem_singleton]
        constructor
        · rintro (⟨p, hp, rfl⟩ | rfl)
          · exact ⟨p, Or.inl hp, rfl⟩
          · exact ⟨_, Or.inr rfl, rfl⟩
        · rintro ⟨p, hp | rfl, rfl⟩
          · exact Or.inl ⟨p, hp, rfl⟩
          · exact Or.inr rfl

theorem parseText_axes (toNum : String → Value) (text : String) :
    (parseText toNum text).uniqueNu.Nodup ∧ (parseText toNum text).uniqueUInf.Nodup ∧
      (∀ v, v ∈ (parseText toNum text).uniqueNu ↔
        ∃ p ∈ (parseText toNum text).allPoints, p.nu_val = v) ∧
      (∀ v, v ∈ (parseText toNum text).uniqueUInf ↔
        ∃ p ∈ (parseText toNum text).allPoints, p.u_inf = v) := by
  unfold parseText
  apply parseRow_foldl_axes
  simp

theorem sortNumeric_perm (vs : List Value) : (sortNumeric vs).Perm vs :=
  jsSort_perm _ _ vs

theorem valueCompare_gt (a b : Value) (ha : a.isNumber = true) (hb : b.isNumber = true) :
    Value.gt (sortCompare (fun v => decide (v = Value.undefined))
      (fun a b => Value.sub a b) a b) (num 0) = Value.lt b a := by
  have ha2 : a ≠ Value.undefined := by rintro rfl; simp [Value.isNumber] at ha
  have hb2 : b ≠ Value.undefined := by rintro rfl; simp [Value.isNumber] at hb
  simp only [sortCompare, ha2, hb2, decide_False, Bool.false_and, Bool.false_eq_true, if_false]
  exact gt_sub_zero a b

theorem sortNumeric_pairwise_le (vs : List Value) (h : ∀ v ∈ vs, v.isNumber = true) :
    (sortNumeric vs).Pairwise (fun a b => Value.le a b = true) := by
  apply jsSort_pairwise _ _ (fun a b : Value => Value.le a b = true)
    (fun v : Value => v.isNumber = true)
  · intro a b ha hb hgt
    rw [valueCompare_gt a b ha hb] at hgt
    exact (Value.not_lt_iff_le ha hb).mp hgt
  · intro a b ha hb hgt
    rw [valueCompare_gt a b ha hb] at hgt
    exact Value.le_of_lt_true hgt
  · intro a b c _ _ _ hab hbc
    exact Value.le_chain hab hbc
  · exact h

theorem sortNumeric_pairwise_lt (vs : List Value) (h : ∀ v ∈ vs, v.isNumber = true)
    (hnd : vs.Nodup) :
    (sortNumeric vs).Pairwise (fun a b => Value.lt a b = true) := by
  have h1 := sortNumeric_pairwise_le vs h
  have h2 : (sortNumeric vs).Pairwise (fun a b => a ≠ b) :=
    ((sortNumeric_perm vs).nodup_iff).mpr hnd
  exact (h1.and h2).imp (fun hab => Value.lt_iff_le_ne.mpr hab)

/-- C4 (as amended): the viscosity axis stored by the load handler is
strictly increasing when every record of the parsed Dataset has a numeric
`nu_val`, the velocity axis is strictly increasing when every record has a
numeric `u_inf`, and the initial Selection is the pair of the first entries
of the two axes. -/
theorem axes_strictly_increasing (toNum : String → Value) (text : String) (s : State) :
    ((∀ p ∈ (parseText toNum text).allPoints, p.nu_val.isNumber = true) →
        (loadSucceeded toNum text s).nuValues.Pairwise (fun a b => Value.lt a b = true)) ∧
      ((∀ p ∈ (parseText toNum text).allPoints, p.u_inf.isNumber = true) →
        (loadSucceeded toNum text s).uInfValues.Pairwise (fun a b => Value.lt a b = true)) ∧
      (loadSucceeded toNum text s).nu =
        some (jsIndex (loadSucceeded toNum text s).nuValues 0) ∧
      (loadSucceeded toNum text s).uInf =
        some (jsIndex (loadSucceeded toNum text s).uInfValues 0) := by
  obtain ⟨h1, h2, h3, h4⟩ := parseText_axes toNum text
  refine ⟨?_, ?_, rfl, rfl⟩
  · intro hnum
    apply sortNumeric_pairwise_lt _ _ h1
    intro v hv
    obtain ⟨p, hp, rfl⟩ := (h3 v).mp hv
    exact hnum p hp
  · intro hnum
    apply sortNumeric_pairwise_lt _ _ h2
    intro v hv
    obtain ⟨p, hp, rfl⟩ := (h4 v).mp hv
    exact hnum p hp

/-- Witness for C4: the three rows of `plainText`. -/
theorem axes_strictly_increasing_witness :
    (∀ p ∈ (parseText demoNumber plainText).allPoints, p.nu_val.isNumber = true) ∧
      (∀ p ∈ (parseText demoNumber plainText).allPoints, p.u_inf.isNumber = true) ∧
      (loadSucceeded demoNumber plainText initialState).nuValues.Pairwise
        (fun a b => Value.lt a b = true) ∧
      (loadSucceeded demoNumber plainText initialState).uInfValues.Pairwise
        (fun a b => Value.lt a b = true) ∧
      (loadSucceeded demoNumber plainText initialState).nu =
        some (jsIndex (loadSucceeded demoNumber plainText initialState).nuValues 0) ∧
      (loadSucceeded demoNumber plainText initialState).uInf =
        some (jsIndex (loadSucceeded demoNumber plainText initialState).uInfValues 0) :=
  have hn : ∀ p ∈ (parseText demoNumber plainText).allPoints, p.nu_val.isNumber = true := by
    simp [parseText, plainText, dataRows, jsSplit, splitChars, parseRow, jsTrim, isTrimChar,
      demoNumber, jsIndex, Value.isNumber]
  have hu : ∀ p ∈ (parseText demoNumber plainText).allPoints, p.u_inf.isNumber = true := by
    simp [parseText, plainText, dataRows, jsSplit, splitChars, parseRow, jsTrim, isTrimChar,
      demoNumber, jsIndex, Value.isNumber]
  have h := axes_strictly_increasing demoNumber plainText initialState
  ⟨hn, hu, h.1 hn, h.2.1 hu, h.2.2.1, h.2.2.2⟩

/-- C4 fails as stated: loading `nanAxisText` stores a viscosity axis made of
`NaN` and `1`, and no arrangement of those two is strictly increasing. -/
theorem axes_nan_not_increasing :
    (loadSucceeded demoNumber nanAxisText initialState).nuValues.Perm [nan, num 1] ∧
      ∀ l : List Value, l.Perm [nan, num 1] →
        ¬ l.Chain' (fun a b => Value.lt a b = true) := by
  constructor
  · refine (sortNumeric_perm _).trans ?_
    simp [parseText, nanAxisText, dataRows, jsSplit, splitChars, parseRow, jsTrim, isTrimChar,
      demoNumber, jsIndex, setAdd]
  · intro l hl hc
    have hlen : l.length = 2 := by rw [hl.length_eq]; rfl
    have hmem : nan ∈ l := hl.symm.subset (by simp)
    have hc2 : l.Chain' (fun a b => Value.le a b = true) :=
      List.Chain'.imp (fun _ _ h => Value.le_of_lt_true h) hc
    have := chain_le_isNumber (fun v : Value => v) l hc2 (by omega) _ hmem
    simp [Value.isNumber] at this

/-- C9 (as amended): the entries of each axis are pairwise distinct, with
nothing said about how far apart they are; and when the entries of each axis
are in fact at least `epsilon` apart, the filter of `getCurrentPoints` for a
Selection taken from the axes accepts only records whose `nu_val` and `u_inf`
are the selected values. -/
theorem axes_distinct_and_selective (toNum : String → Value) (text : String) (s : State) :
    (loadSucceeded toNum text s).nuValues.Nodup ∧
      (loadSucceeded toNum text s).uInfValues.Nodup ∧
      ((∀ a ∈ (loadSucceeded toNum text s).nuValues,
          ∀ b ∈ (loadSucceeded toNum text s).nuValues,
            a ≠ b → Value.lt (Value.abs (Value.sub a b)) epsilon = false) →
        (∀ a ∈ (loadSucceeded toNum text s).uInfValues,
          ∀ b ∈ (loadSucceeded toNum text s).uInfValues,
            a ≠ b → Value.lt (Value.abs (Value.sub a b)) epsilon = false) →
        ∀ nu ∈ (loadSucceeded toNum text s).nuValues,
          ∀ uInf ∈ (loadSucceeded toNum text s).uInfValues,
            ∀ p ∈ (parseText toNum text).allPoints,
              matchesSelection nu uInf p = true → p.nu_val = nu ∧ p.u_inf = uInf) := by
  obtain ⟨h1, h2, h3, h4⟩ := parseText_axes toNum text
  refine ⟨((sortNumeric_perm _).nodup_iff).mpr h1, ((sortNumeric_perm _).nodup_iff).mpr h2, ?_⟩
  intro hsepNu hsepU nu hnu uInf hu p hp hm
  have hpn : p.nu_val ∈ (loadSucceeded toNum text s).nuValues :=
    (sortNumeric_perm _).symm.subset ((h3 _).mpr ⟨p, hp, rfl⟩)
  have hpu : p.u_inf ∈ (loadSucceeded toNum text s).uInfValues :=
    (sortNumeric_perm _).symm.subset ((h4 _).mpr ⟨p, hp, rfl⟩)
  simp only [matchesSelection, Bool.and_eq_true] at hm
  constructor
  · by_contra hne
    have := hsepNu _ hpn _ hnu hne
    rw [hm.1] at this
    exact Bool.noConfusion this
  · by_contra hne
    have := hsepU _ hpu _ hu hne
    rw [hm.2] at this
    exact Bool.noConfusion this

theorem plainText_points :
    (parseText demoNumber plainText).allPoints =
      [⟨num 2, num 1, num 1, num 0, num 1⟩, ⟨num 1, num 1, num 2, num 0, num 1⟩,
        ⟨num 2, num 1, num 2, num 0, num 1⟩] := by
  simp [parseText, plainText, dataRows, jsSplit, splitChars, parseRow, jsTrim, isTrimChar,
    demoNumber, jsIndex]

theorem plainText_nuValues :
    (loadSucceeded demoNumber plainText initialState).nuValues = [num 1, num 2] := by
  simp [loadSucceeded, sortNumeric, jsSort, insertSorted, sortCompare, parseText, plainText,
    dataRows, jsSplit, splitChars, parseRow, jsTrim, isTrimChar, demoNumber, setAdd, jsIndex,
    Value.sub, Value.toNumber, Value.gt, Value.lt]

theorem plainText_uInfValues :
    (loadSucceeded demoNumber plainText initialState).uInfValues = [num 1] := by
  simp [loadSucceeded, sortNumeric, jsSort, insertSorted, sortCompare, parseText, plainText,
    dataRows, jsSplit, splitChars, parseRow, jsTrim, isTrimChar, demoNumber, setAdd, jsIndex,
    Value.sub, Value.toNumber, Value.gt, Value.lt]

/-- Witness for C9: on `plainText` the axes are `[1, 2]` and `[1]`, which
are separated, and the row `2,1,1,0,1` matches the Selection `(2, 1)`. -/
theorem axes_distinct_and_selective_witness :
    (∀ a ∈ (loadSucceeded demoNumber plainText initialState).nuValues,
        ∀ b ∈ (loadSucceeded demoNumber plainText initialState).nuValues,
          a ≠ b → Value.lt (Value.abs (Value.sub a b)) epsilon = false) ∧
      (∀ a ∈ (loadSucceeded demoNumber plainText initialState).uInfValues,
        ∀ b ∈ (loadSucceeded demoNumber plainText initialState).uInfValues,
          a ≠ b → Value.lt (Value.abs (Value.sub a b)) epsilon = false) ∧
      num 2 ∈ (loadSucceeded demoNumber plainText initialState).nuValues ∧
      num 1 ∈ (loadSucceeded demoNumber plainText initialState).uInfValues ∧
      (⟨num 2, num 1, num 1, num 0, num 1⟩ : Point) ∈
        (parseText demoNumber plainText).allPoints ∧
      matchesSelection (num 2) (num 1) ⟨num 2, num 1, num 1, num 0, num 1⟩ = true ∧
      (⟨num 2, num 1, num 1, num 0, num 1⟩ : Point).nu_val = num 2 ∧
      (⟨num 2, num 1, num 1, num 0, num 1⟩ : Point).u_inf = num 1 :=
  have hsepNu : ∀ a ∈ (loadSucceeded demoNumber plainText initialState).nuValues,
      ∀ b ∈ (loadSucceeded demoNumber plainText initialState).nuValues,
        a ≠ b → Value.lt (Value.abs (Value.sub a b)) epsilon = false := by
    rw [plainText_nuValues]
    simp [Value.sub, Value.abs, Value.lt, Value.toNumber, epsilon]
    norm_num
  have hsepU : ∀ a ∈ (loadSucceeded demoNumber plainText initialState).uInfValues,
      ∀ b ∈ (loadSucceeded demoNumber plainText initialState).uInfValues,
        a ≠ b → Value.lt (Value.abs (Value.sub a b)) epsilon = false := by
    rw [plainText_uInfValues]
    simp
  have hnu : num 2 ∈ (loadSucceeded demoNumber plainText initialState).nuValues := by
    rw [plainText_nuValues]; simp
  have hu : num 1 ∈ (loadSucceeded demoNumber plainText initialState).uInfValues := by
    rw [plainText_uInfValues]; simp
  have hp : (⟨num 2, num 1, num 1, num 0, num 1⟩ : Point) ∈
      (parseText demoNumber plainText).allPoints := by
    rw [plainText_points]; simp
  have hm : matchesSelection (num 2) (num 1) ⟨num 2, num 1, num 1, num 0, num 1⟩ = true := by
    simp [matchesSelection, Value.sub, Value.abs, Value.lt, Value.toNumber, epsilon]
  ⟨hsepNu, hsepU, hnu, hu, hp, hm,
    (axes_distinct_and_selective demoNumber plainText initialState).2.2 hsepNu hsepU
      (num 2) hnu (num 1) hu _ hp hm⟩

/-- C9 fails as stated: loading `closeAxisText` gives a viscosity axis whose
two entries are `1e-10` apart, which is less than `epsilon`, and with the
initial Selection `(1, 1)` the record of the other axis entry is returned by
`getCurrentPoints` as well. -/
theorem axes_closer_than_epsilon :
    (loadSucceeded demoNumber closeAxisText initialState).nuValues =
        [num 1, num (1 + 1 / 10 ^ 10)] ∧
      Value.lt (Value.abs (Value.sub (num 1) (num (1 + 1 / 10 ^ 10)))) epsilon = true ∧
      (loadSucceeded demoNumber closeAxisText initialState).nu = some (num 1) ∧
      (loadSucceeded demoNumber closeAxisText initialState).uInf = some (num 1) ∧
      (⟨num (1 + 1 / 10 ^ 10), num 1, num 2, num 0, num 1⟩ : Point) ∈
        getCurrentPoints (loadSucceeded demoNumber closeAxisText initialState) := by
  have hnu : (loadSucceeded demoNumber closeAxisText initialState).nuValues =
      [num 1, num (1 + 1 / 10 ^ 10)] := by
    simp [loadSucceeded, sortNumeric, jsSort, insertSorted, sortCompare, parseText,
      closeAxisText, dataRows, jsSplit, splitChars, parseRow, jsTrim, isTrimChar, demoNumber,
      setAdd, jsIndex, Value.sub, Value.toNumber, Value.gt, Value.lt]
  have hu : (loadSucceeded demoNumber closeAxisText initialState).uInfValues = [num 1] := by
    simp [loadSucceeded, sortNumeric, jsSort, insertSorted, sortCompare, parseText,
      closeAxisText, dataRows, jsSplit, splitChars, parseRow, jsTrim, isTrimChar, demoNumber,
      setAdd, jsIndex, Value.sub, Value.toNumber, Value.gt, Value.lt]
  have hdata : (loadSucceeded demoNumber closeAxisText initialState).data =
      some [⟨num 1, num 1, num 1, num 0, num 1⟩,
        ⟨num (1 + 1 / 10 ^ 10), num 1, num 2, num 0, num 1⟩] := by
    simp [loadSucceeded, parseText, closeAxisText, dataRows, jsSplit, splitChars, parseRow,
      jsTrim, isTrimChar, demoNumber, jsIndex]
  have hsel1 : (loadSucceeded demoNumber closeAxisText initialState).nu = some (num 1) := by
    show some (jsIndex (loadSucceeded demoNumber closeAxisText initialState).nuValues 0) = _
    rw [hnu]; rfl
  have hsel2 : (loadSucceeded demoNumber closeAxisText initialState).uInf = some (num 1) := by
    show some (jsIndex (loadSucceeded demoNumber closeAxisText initialState).uInfValues 0) = _
    rw [hu]; rfl
  refine ⟨hnu, ?_, hsel1, hsel2, ?_⟩
  · simp [Value.sub, Value.abs, Value.lt, Value.toNumber, epsilon]
    norm_num [abs_lt]
  · rw [getCurrentPoints_loaded _ _ _ _ hdata hsel1 hsel2]
    apply (jsSort_perm _ _ _).symm.subset
    simp [matchesSelection, Value.sub, Value.abs, Value.lt, Value.toNumber, epsilon]
    norm_num [abs_lt]

/-! ## Loading an empty dataset -/

/-- C8 (as amended): when the text parses to an empty Dataset, the load
handler finishes without an error: from the initial state, `error` stays
unset, `loading` becomes false, both axes are empty, the Selection is
`(undefined, undefined)` and `data` is the empty Dataset; the plot region
then shows the "No data found" notice, neither the loading nor the error
notice, and the sliders are not rendered. -/
theorem load_empty_dataset (toNum : String → Value) (numToString : Value → String)
    (text : String) (hempty : (parseText toNum text).allPoints = []) :
    (loadSucceeded toNum text initialState).error = none ∧
      (loadSucceeded toNum text initialState).loading = false ∧
      (loadSucceeded toNum text initialState).nuValues = [] ∧
      (loadSucceeded toNum text initialState).uInfValues = [] ∧
      (loadSucceeded toNum text initialState).nu = some Value.undefined ∧
      (loadSucceeded toNum text initialState).uInf = some Value.undefined ∧
      (loadSucceeded toNum text initialState).data = some [] ∧
      plotRegion numToString (loadSucceeded toNum text initialState) =
        PlotRegion.plot Rendered.noData ∧
      controlsShown (loadSucceeded toNum text initialState) = false := by
  obtain ⟨_, _, h3, h4⟩ := parseText_axes toNum text
  have hn : (parseText toNum text).uniqueNu = [] := by
    apply List.eq_nil_iff_forall_not_mem.mpr
    intro v hv
    obtain ⟨p, hp, _⟩ := (h3 v).mp hv
    rw [hempty] at hp
    exact List.not_mem_nil _ hp
  have hu : (parseText toNum text).uniqueUInf = [] := by
    apply List.eq_nil_iff_forall_not_mem.mpr
    intro v hv
    obtain ⟨p, hp, _⟩ := (h4 v).mp hv
    rw [hempty] at hp
    exact List.not_mem_nil _ hp
  simp [loadSucceeded, initialState, hn, hu, hempty, sortNumeric, jsSort, jsIndex, plotRegion,
    renderProfile, renderPoints, getCurrentPoints, controlsShown]

/-- Witness for C8: a header followed by blank lines only. -/
theorem load_empty_dataset_witness :
    (parseText demoNumber "nu,u_inf,x,re_x,delta99\n\n  \n").allPoints = [] ∧
      (loadSucceeded demoNumber "nu,u_inf,x,re_x,delta99\n\n  \n" initialState).error = none ∧
      (loadSucceeded demoNumber "nu,u_inf,x,re_x,delta99\n\n  \n" initialState).loading
        = false ∧
      (loadSucceeded demoNumber "nu,u_inf,x,re_x,delta99\n\n  \n" initialState).nuValues
        = [] ∧
      (loadSucceeded demoNumber "nu,u_inf,x,re_x,delta99\n\n  \n" initialState).uInfValues
        = [] ∧
      (loadSucceeded demoNumber "nu,u_inf,x,re_x,delta99\n\n  \n" initialState).nu
        = some Value.undefined ∧
      (loadSucceeded demoNumber "nu,u_inf,x,re_x,delta99\n\n  \n" initialState).uInf
        = some Value.undefined ∧
      (loadSucceeded demoNumber "nu,u_inf,x,re_x,delta99\n\n  \n" initialState).data
        = some [] ∧
      plotRegion (fun _ => "0")
          (loadSucceeded demoNumber "nu,u_inf,x,re_x,delta99\n\n  \n" initialState) =
        PlotRegion.plot Rendered.noData ∧
      controlsShown (loadSucceeded demoNumber "nu,u_inf,x,re_x,delta99\n\n  \n" initialState)
        = false :=
  have h : (parseText demoNumber "nu,u_inf,x,re_x,delta99\n\n  \n").allPoints = [] := by
    simp [parseText, dataRows, jsSplit, splitChars, parseRow, jsTrim, isTrimChar]
  ⟨h, load_empty_dataset demoNumber (fun _ => "0") _ h⟩

/-- C8 fails as stated: after loading a text that is only a header line, no
error is set, and the plot region is the plot with its "No data found"
notice, not an error notice. -/
theorem load_header_only_no_error :
    (parseText demoNumber "h").allPoints = [] ∧
      (loadSucceeded demoNumber "h" initialState).error = none ∧
      ∀ numToString : Value → String,
        plotRegion numToString (loadSucceeded demoNumber "h" initialState) =
          PlotRegion.plot Rendered.noData := by
  simp [loadSucceeded, initialState, parseText, dataRows, jsSplit, splitChars, sortNumeric,
    jsSort, jsIndex, plotRegion, renderProfile, renderPoints, getCurrentPoints]

/-! ## PlotMapper -/

theorem pathCommand_eq_commandAfter (pre : List Point) (p : Point) (suf : List Point) :
    pathCommand (pre ++ p :: suf) p pre.length = commandAfter pre.getLast? p := by
  unfold pathCommand commandAfter
  split
  · rfl
  · rcases List.eq_nil_or_concat pre with rfl | ⟨pre2, q, rfl⟩
    · simp
    · have hq : (pre2.concat q ++ p :: suf).get? ((pre2.concat q).length - 1) = some q := by
        have e1 : pre2.concat q ++ p :: suf = pre2 ++ q :: p :: suf := by simp
        have e2 : (pre2.concat q).length - 1 = pre2.length := by simp
        rw [e1, e2, List.get?_eq_getElem?, List.getElem?_append_right (le_refl _)]
        simp
      have hl : (pre2.concat q).getLast? = some q := by simp
      rw [hq, hl]
      simp

theorem filterMap_enumFrom_eq_commandsAfter (suf : List Point) :
    ∀ pre : List Point,
      (List.enumFrom pre.length suf).filterMap (fun ip => pathCommand (pre ++ suf) ip.2 ip.1)
        = commandsAfter pre.getLast? suf := by
  induction suf with
  | nil => intro pre; simp [commandsAfter]
  | cons p suf ih =>
    intro pre
    have h := ih (pre ++ [p])
    have hl : (pre ++ [p]).getLast? = some p := by simp
    have happ : pre ++ [p] ++ suf = pre ++ p :: suf := by simp
    have hlen : (pre ++ [p]).length = pre.length + 1 := by simp
    rw [hl, happ, hlen] at h
    rw [List.enumFrom_cons, List.filterMap_cons, commandsAfter, ← h,
      pathCommand_eq_commandAfter]
    cases commandAfter pre.getLast? p <;> simp

theorem pathCommands_eq_commandsAfter (points : List Point) :
    pathCommands points = commandsAfter none points := by
  have h := filterMap_enumFrom_eq_commandsAfter points []
  simpa [pathCommands, List.enum] using h

theorem retained_iff_ge {x : Value} (hx : x.isNumber = true) :
    Value.lt x (num (1 / 2)) = false ↔ Value.ge x (num (1 / 2)) = true := by
  unfold Value.ge
  exact Value.not_lt_iff_le (by rfl) hx

theorem scaleX_nan : scaleX nan = nan := by
  simp [scaleX, Value.minus, Value.sub, Value.rounded, Value.div, Value.mul, Value.add,
    Value.toNumber]

theorem commandsAfter_coordinates (l : List Point) :
    ∀ prev : Option Point, (∀ p ∈ l, p.x.isNumber = true) →
      (commandsAfter prev l).map (fun c => (c.x, c.y)) =
        (l.filter (fun p => Value.ge p.x (num (1 / 2)))).map
          (fun p => (scaleX p.x, scaleY p.delta99)) := by
  induction l with
  | nil => intro prev _; simp [commandsAfter]
  | cons p rest ih =>
    intro prev hnum
    have hp := hnum p (List.mem_cons_self _ _)
    have ih2 := ih (some p) (fun q hq => hnum q (List.mem_cons_of_mem _ hq))
    rw [commandsAfter, List.map_append, ih2]
    cases hlt : Value.lt p.x (num (1 / 2))
    · have hge := (retained_iff_ge hp).mp hlt
      simp only [one_div] at hlt hge
      simp [commandAfter, hlt, hge, List.filter_cons]
    · have hge : Value.ge p.x (num (1 / 2)) = false := by
        cases h : Value.ge p.x (num (1 / 2))
        · rfl
        · rw [(retained_iff_ge hp).mpr h] at hlt
          exact Bool.noConfusion hlt
      simp only [one_div] at hlt hge
      simp [commandAfter, hlt, hge, List.filter_cons]

/-- For a point sequence in which every `x` is numeric, the coordinates of
the path commands are, in order, the images of the points with `x >= 0.5`
under the pixel mapping of lines 194 and 196, and the path text is these
commands joined by spaces. -/
theorem pathCommands_coordinates (numToString : Value → String) (points : List Point)
    (hnum : ∀ p ∈ points, p.x.isNumber = true) :
    (pathCommands points).map (fun c => (c.x, c.y)) =
        (points.filter (fun p => Value.ge p.x (num (1 / 2)))).map
          (fun p => (scaleX p.x, scaleY p.delta99)) ∧
      pathData numToString points =
        jsJoin " " ((pathCommands points).map (Command.render numToString)) := by
  refine ⟨?_, rfl⟩
  rw [pathCommands_eq_commandsAfter]
  exact commandsAfter_coordinates points none hnum

theorem nanPoint_commands :
    pathCommands [pointAt nan] =
      [{ marker := Marker.M, x := nan, y := scaleY (pointAt nan).delta99 }] := by
  rw [pathCommands_eq_commandsAfter]
  simp [commandsAfter, commandAfter, pointAt, Value.lt, Value.toNumber, scaleX_nan]

/-- C2, the code at the failing input: for the single record whose `x` is
`NaN` (the row `1,1,abc,0,0.1`) the path has one command, `M` at abscissa
`NaN`, although no point has `x >= 0.5`; the claim allows a command only for
points with `x >= 0.5`, and so does the comment of line 192. -/
theorem pathCommands_nan_retained :
    pathCommands [pointAt nan] =
        [{ marker := Marker.M, x := nan, y := scaleY (pointAt nan).delta99 }] ∧
      [pointAt nan].filter (fun p => Value.ge p.x (num (1 / 2))) = [] := by
  constructor
  · exact nanPoint_commands
  · simp [pointAt, Value.ge, Value.le, Value.toNumber]

theorem render_length_pos (numToString : Value → String) (c : Command) :
    0 < (Command.render numToString c).length := by
  obtain ⟨m, x, y⟩ := c
  cases m <;> simp only [Command.render, String.length_append] <;>
    exact Nat.lt_of_lt_of_le (by decide) (Nat.le_add_right _ _ |>.trans (Nat.le_add_right _ _)
      |>.trans (Nat.le_add_right _ _) |>.trans (Nat.le_add_right _ _))

theorem jsJoin_length_pos (sep : String) :
    ∀ l : List String, l ≠ [] → (∀ a ∈ l, 0 < a.length) → 0 < (jsJoin sep l).length
  | [], h, _ => absurd rfl h
  | [a], _, hpos => by
    simpa [jsJoin] using hpos a (List.mem_singleton_self a)
  | a :: b :: rest, _, hpos => by
    have ha := hpos a (List.mem_cons_self _ _)
    simp only [jsJoin, String.length_append]
    omega

theorem pathData_eq_empty_iff (numToString : Value → String) (points : List Point) :
    pathData numToString points = "" ↔ pathCommands points = [] := by
  constructor
  · intro h
    by_contra hne
    have hpos := jsJoin_length_pos " " ((pathCommands points).map (Command.render numToString))
      (by simpa using hne)
      (by
        intro a ha
        obtain ⟨c, _, rfl⟩ := List.mem_map.mp ha
        exact render_length_pos numToString c)
    unfold pathData at h
    rw [h] at hpos
    simp at hpos
  · intro h
    simp [pathData, h, jsJoin]

theorem pathCommands_eq_nil_iff (points : List Point)
    (hnum : ∀ p ∈ points, p.x.isNumber = true) :
    pathCommands points = [] ↔ ∀ p ∈ points, Value.ge p.x (num (1 / 2)) = false := by
  have h := congrArg List.length
    (commandsAfter_coordinates points none hnum)
  rw [← pathCommands_eq_commandsAfter, List.length_map, List.length_map] at h
  rw [← List.length_eq_zero, h, List.length_eq_zero, List.filter_eq_nil_iff]
  simp

theorem commandsAfter_eq_nil_iff (l : List Point) :
    ∀ prev : Option Point,
      commandsAfter prev l = [] ↔ ∀ p ∈ l, Value.lt p.x (num (1 / 2)) = true := by
  induction l with
  | nil => intro prev; simp [commandsAfter]
  | cons p rest ih =>
    intro prev
    rw [commandsAfter, List.append_eq_nil, ih (some p), List.forall_mem_cons]
    apply and_congr_left'
    unfold commandAfter
    cases hlt : Value.lt p.x (num (1 / 2)) <;> simp [Option.toList]

/-- The renderer returns the path built from `pathData` as soon as one point
has `x >= 0.5`, and the "No data found" notice whenever every point has
`x < 0.5` (in particular for the empty curve); when every `x` is numeric it
returns the notice if and only if no point has `x >= 0.5`. -/
theorem renderPoints_noData_iff (numToString : Value → String) (points : List Point) :
    ((∃ p ∈ points, Value.ge p.x (num (1 / 2)) = true) →
        renderPoints numToString points = Rendered.path (pathData numToString points)) ∧
      ((∀ p ∈ points, Value.lt p.x (num (1 / 2)) = true) →
        renderPoints numToString points = Rendered.noData) ∧
      ((∀ p ∈ points, p.x.isNumber = true) →
        (renderPoints numToString points = Rendered.noData ↔
          ∀ p ∈ points, Value.ge p.x (num (1 / 2)) = false)) := by
  have hempty := pathData_eq_empty_iff numToString points
  have hnilLt : pathCommands points = [] ↔
      ∀ p ∈ points, Value.lt p.x (num (1 / 2)) = true := by
    rw [pathCommands_eq_commandsAfter]
    exact commandsAfter_eq_nil_iff points none
  have hsentinel : renderPoints numToString points = Rendered.noData ↔
      pathCommands points = [] := by
    rw [← hempty]
    unfold renderPoints
    by_cases hlen : points.length = 0
    · have hp : points = [] := List.length_eq_zero.mp hlen
      subst hp
      simp [pathData, pathCommands, jsJoin]
    · by_cases hd : pathData numToString points = "" <;> simp [hlen, hd]
  refine ⟨?_, ?_, ?_⟩
  · rintro ⟨p, hp, hge⟩
    have hpnum : p.x.isNumber = true := Value.isNumber_of_le_right hge
    have hplt : Value.lt p.x (num (1 / 2)) = false := (retained_iff_ge hpnum).mpr hge
    have hne : points.length ≠ 0 := by
      intro h0
      rw [List.length_eq_zero] at h0
      rw [h0] at hp
      exact List.not_mem_nil _ hp
    have hd : pathData numToString points ≠ "" := by
      intro hd
      have := hnilLt.mp (hempty.mp hd) p hp
      rw [hplt] at this
      exact Bool.noConfusion this
    simp [renderPoints, hne, hd]
  · intro hall
    exact hsentinel.mpr (hnilLt.mpr hall)
  · intro hnum
    rw [hsentinel]
    exact pathCommands_eq_nil_iff points hnum

/-- C6, the code at the failing input: when the only selected record has
`x = NaN` (the row `1,1,abc,0,0.1`), the VisibleCurve has no point with
`x >= 0.5`, yet the renderer returns a path, `M NaN ...`, and not the "No
data found" notice that the claim requires; the comment of line 192 says
only points with `x >= 0.5` are scaled. -/
theorem renderProfile_nan_draws_path :
    getCurrentPoints (loadedState [pointAt nan]) = [pointAt nan] ∧
      (∀ p ∈ getCurrentPoints (loadedState [pointAt nan]),
        Value.ge p.x (num (1 / 2)) = false) ∧
      ∀ numToString : Value → String,
        renderProfile numToString (loadedState [pointAt nan]) =
          Rendered.path
            ("M " ++ numToString nan ++ " " ++ numToString (scaleY (pointAt nan).delta99)) := by
  have hcur : getCurrentPoints (loadedState [pointAt nan]) = [pointAt nan] := by
    simp [getCurrentPoints, loadedState, pointAt, matchesSelection, jsSort, insertSorted,
      Value.sub, Value.abs, Value.lt, Value.toNumber, epsilon]
  refine ⟨hcur, ?_, ?_⟩
  · rw [hcur]
    simp [pointAt, Value.ge, Value.le, Value.toNumber]
  · intro numToString
    have hd : pathData numToString [pointAt nan] =
        "M " ++ numToString nan ++ " " ++ numToString (scaleY (pointAt nan).delta99) := by
      unfold pathData
      rw [nanPoint_commands]
      simp [jsJoin, Command.render]
    have hne : pathData numToString [pointAt nan] ≠ "" :=
      fun h => by
        have := (pathData_eq_empty_iff numToString [pointAt nan]).mp h
        rw [nanPoint_commands] at this
        exact List.cons_ne_nil _ _ this
    have hr : renderPoints numToString [pointAt nan] =
        Rendered.path (pathData numToString [pointAt nan]) := by
      simp [renderPoints, hne]
    unfold renderProfile
    rw [hcur, hr, hd]

/-! ## Segment markers -/

theorem commandsAfter_append (l₁ l₂ : List Point) :
    ∀ prev : Option Point,
      commandsAfter prev (l₁ ++ l₂) =
        commandsAfter prev l₁ ++ commandsAfter (l₁.foldl (fun _ p => some p) prev) l₂ := by
  induction l₁ with
  | nil => intro prev; simp [commandsAfter]
  | cons a t ih =>
    intro prev
    rw [List.cons_append, commandsAfter, commandsAfter, ih (some a), List.foldl_cons,
      List.append_assoc]

theorem foldl_some_eq_getLast? (pre : List Point) :
    pre.foldl (fun _ p => some p) none = pre.getLast? := by
  rcases List.eq_nil_or_concat pre with rfl | ⟨t, q, rfl⟩
  · rfl
  · simp [List.foldl_append]

theorem commandsAfter_length (l : List Point) (prev : Option Point)
    (hnum : ∀ p ∈ l, p.x.isNumber = true) :
    (commandsAfter prev l).length =
      (l.filter (fun p => Value.ge p.x (num (1 / 2)))).length := by
  have h := congrArg List.length (commandsAfter_coordinates l prev hnum)
  rwa [List.length_map, List.length_map] at h

/-- In a point sequence whose `x` values are all numeric, take a point `p`
with `x >= 0.5`, preceded by `pre` and followed by `suf`.
Its command is the one at position "number of retained points of `pre`" of
the path; the marker is `M` when no point of `pre` is retained (`p` is the
first retained point), and otherwise `L` unless the last point of `pre` has
`x < 0.5`, in which case it is `M`. -/
theorem pathCommands_marker (pre : List Point) (p : Point) (suf : List Point)
    (hnum : ∀ q ∈ pre ++ p :: suf, q.x.isNumber = true)
    (hp : Value.ge p.x (num (1 / 2)) = true) :
    (pathCommands (pre ++ p :: suf)).get?
        (pre.filter (fun q => Value.ge q.x (num (1 / 2)))).length =
      some
        { marker :=
            if ∀ q ∈ pre, Value.ge q.x (num (1 / 2)) = false then Marker.M
            else
              match pre.getLast? with
              | some q => if Value.lt q.x (num (1 / 2)) = true then Marker.M else Marker.L
              | none => Marker.M,
          x := scaleX p.x,
          y := scaleY p.delta99 } := by
  have hpre : ∀ q ∈ pre, q.x.isNumber = true :=
    fun q hq => hnum q (List.mem_append_left _ hq)
  have hpnum : p.x.isNumber = true := hnum p (by simp)
  have hplt : Value.lt p.x (num (1 / 2)) = false := (retained_iff_ge hpnum).mpr hp
  rw [pathCommands_eq_commandsAfter, commandsAfter_append, foldl_some_eq_getLast?,
    ← commandsAfter_length pre none hpre, List.get?_eq_getElem?,
    List.getElem?_append_right (le_refl _), Nat.sub_self, commandsAfter]
  have hcmd : commandAfter pre.getLast? p = some
      { marker :=
          match pre.getLast? with
          | none => Marker.M
          | some q => if Value.lt q.x (num (1 / 2)) = true then Marker.M else Marker.L,
        x := scaleX p.x,
        y := scaleY p.delta99 } := by
    unfold commandAfter
    rw [if_neg (by rw [hplt]; exact Bool.false_ne_true)]
  rw [hcmd]
  simp only [Option.toList, List.cons_append, List.nil_append, List.getElem?_cons_zero,
    Option.some.injEq, Command.mk.injEq, and_true]
  rcases List.eq_nil_or_concat pre with rfl | ⟨t, q, rfl⟩
  · simp
  · have hl : (t.concat q).getLast? = some q := by simp
    rw [hl]
    by_cases hall : ∀ r ∈ t.concat q, Value.ge r.x (num (1 / 2)) = false
    · rw [if_pos hall]
      have hq := hall q (by simp)
      have hqnum : q.x.isNumber = true := hpre q (by simp)
      have hqlt : Value.lt q.x (num (1 / 2)) = true := by
        cases h : Value.lt q.x (num (1 / 2))
        · rw [(retained_iff_ge hqnum).mp h] at hq
          exact Bool.noConfusion hq
        · rfl
      show (if Value.lt q.x (num (1 / 2)) = true then Marker.M else Marker.L) = Marker.M
      rw [if_pos hqlt]
    · rw [if_neg hall]

/-- C7, the code at the failing input: in the sequence `x = NaN`, `x = 1`
(the rows `1,1,abc,0,0.1` and `1,1,1,0,0.1`) the only point with `x >= 0.5`
is the second one, so it is the first retained point and the claim gives it
`M`; the code gives it `L`, and gives `M` to a command emitted for the `NaN`
point, which the comment of line 192 says is not scaled. -/
theorem pathCommands_nan_then_line :
    Value.ge (pointAt nan).x (num (1 / 2)) = false ∧
      Value.ge (pointAt (num 1)).x (num (1 / 2)) = true ∧
      pathCommands [pointAt nan, pointAt (num 1)] =
        [{ marker := Marker.M, x := nan, y := scaleY (pointAt nan).delta99 },
          { marker := Marker.L, x := scaleX (num 1), y := scaleY (pointAt (num 1)).delta99 }] := by
  refine ⟨?_, ?_, ?_⟩
  · simp [pointAt, Value.ge, Value.le, Value.toNumber]
  · simp [pointAt, Value.ge, Value.le, Value.toNumber]
    norm_num
  · rw [pathCommands_eq_commandsAfter]
    simp [commandsAfter, commandAfter, pointAt, Value.lt, Value.toNumber, scaleX_nan]
    norm_num

/-! ## The path of a sorted curve -/

theorem commandsAfter_all_lines (l : List Point) :
    ∀ prev : Point, Value.lt prev.x (num (1 / 2)) = false →
      (∀ p ∈ l, Value.lt p.x (num (1 / 2)) = false) →
      commandsAfter (some prev) l =
        l.map (fun q => { marker := Marker.L, x := scaleX q.x, y := scaleY q.delta99 }) := by
  induction l with
  | nil => intro _ _ _; rfl
  | cons p rest ih =>
    intro prev hprev hall
    have hp := hall p (List.mem_cons_self _ _)
    have ih2 := ih p hp (fun q hq => hall q (List.mem_cons_of_mem _ hq))
    rw [commandsAfter, ih2]
    unfold commandAfter
    rw [if_neg (by rw [hp]; exact Bool.false_ne_true)]
    simp only [hprev, Bool.false_eq_true, if_false, Option.toList, List.cons_append,
      List.nil_append, List.map_cons]

theorem commandsAfter_sorted (l : List Point) :
    ∀ prev : Option Point,
      (∀ q, prev = some q → Value.lt q.x (num (1 / 2)) = true) →
      (∀ p ∈ l, p.x.isNumber = true) →
      l.Pairwise (fun a b => Value.le a.x b.x = true) →
      commandsAfter prev l = naiveCommands l := by
  induction l with
  | nil => intro _ _ _ _; rfl
  | cons p rest ih =>
    intro prev hprev hnum hsorted
    have hpnum := hnum p (List.mem_cons_self _ _)
    have hrest : ∀ q ∈ rest, q.x.isNumber = true :=
      fun q hq => hnum q (List.mem_cons_of_mem _ hq)
    rw [List.pairwise_cons] at hsorted
    cases hlt : Value.lt p.x (num (1 / 2))
    · have hge : Value.ge p.x (num (1 / 2)) = true := (retained_iff_ge hpnum).mp hlt
      have hall : ∀ q ∈ rest, Value.lt q.x (num (1 / 2)) = false := by
        intro q hq
        apply (retained_iff_ge (hrest q hq)).mpr
        exact Value.le_chain hge (hsorted.1 q hq)
      have hfilter : rest.filter (fun q => Value.ge q.x (num (1 / 2))) = rest := by
        apply List.filter_eq_self.mpr
        intro q hq
        exact (retained_iff_ge (hrest q hq)).mp (hall q hq)
      rw [commandsAfter, commandsAfter_all_lines rest p hlt hall]
      unfold naiveCommands
      rw [List.filter_cons, if_pos hge, hfilter]
      unfold commandAfter
      rw [if_neg (by rw [hlt]; exact Bool.false_ne_true)]
      cases prev with
      | none => rfl
      | some q =>
        have hq := hprev q rfl
        simp only [hq, if_true, Option.toList, List.cons_append, List.nil_append]
    · have hge : ¬ Value.ge p.x (num (1 / 2)) = true := by
        intro h
        rw [(retained_iff_ge hpnum).mpr h] at hlt
        exact Bool.noConfusion hlt
      have ih2 := ih (some p) (fun q hq => by cases hq; exact hlt) hrest hsorted.2
      rw [commandsAfter, ih2]
      unfold commandAfter naiveCommands
      rw [if_pos hlt, List.filter_cons, if_neg hge]
      rfl

theorem chain_le_pairwise (points : List Point)
    (h : points.Chain' (fun a b => Value.le a.x b.x = true)) :
    points.Pairwise (fun a b => Value.le a.x b.x = true) := by
  haveI : IsTrans Point (fun a b => Value.le a.x b.x = true) :=
    ⟨fun _ _ _ hab hbc => Value.le_chain hab hbc⟩
  exact List.chain'_iff_pairwise.mp h

theorem sorted_retained_isNumber (points : List Point)
    (hsorted : points.Chain' (fun a b => Value.le a.x b.x = true))
    (hex : ∃ p ∈ points, Value.ge p.x (num (1 / 2)) = true) :
    ∀ p ∈ points, p.x.isNumber = true := by
  by_cases hlen : 2 ≤ points.length
  · exact chain_le_isNumber (fun p : Point => p.x) points hsorted hlen
  · obtain ⟨r, hr, hge⟩ := hex
    intro p hp
    have hone : points = [r] := by
      match points, hr, hlen with
      | [a], hr, _ => rw [List.mem_singleton.mp hr]
      | a :: b :: t, _, hlen => simp at hlen
    rw [hone] at hp
    rcases List.mem_singleton.mp hp with rfl
    exact Value.isNumber_of_le_right hge

/-- On a point sequence sorted ascending by `x` that has a point with
`x >= 0.5`, the commands built by `pathData` are those of the naive mapper;
the markers are one `M` on the first command and `L` on every other one, and
the two path texts agree. -/
theorem pathCommands_sorted_eq_naive (numToString : Value → String) (points : List Point)
    (hsorted : points.Chain' (fun a b => Value.le a.x b.x = true))
    (hex : ∃ p ∈ points, Value.ge p.x (num (1 / 2)) = true) :
    pathCommands points = naiveCommands points ∧
      (pathCommands points).map (fun c => c.marker) =
        Marker.M :: List.replicate ((pathCommands points).length - 1) Marker.L ∧
      pathData numToString points =
        jsJoin " " ((naiveCommands points).map (Command.render numToString)) := by
  have hnum := sorted_retained_isNumber points hsorted hex
  have heq : pathCommands points = naiveCommands points := by
    rw [pathCommands_eq_commandsAfter]
    exact commandsAfter_sorted points none (fun q hq => by cases hq) hnum
      (chain_le_pairwise points hsorted)
  refine ⟨heq, ?_, by unfold pathData; rw [heq]⟩
  rw [heq]
  unfold naiveCommands
  obtain ⟨r, hr, hge⟩ := hex
  have hmem : r ∈ points.filter (fun p => Value.ge p.x (num (1 / 2))) :=
    List.mem_filter.mpr ⟨hr, hge⟩
  cases hf : points.filter (fun p => Value.ge p.x (num (1 / 2))) with
  | nil => rw [hf] at hmem; exact absurd hmem (List.not_mem_nil _)
  | cons a t =>
    simp only [List.map_cons, List.map_map, List.length_cons, List.length_map,
      Nat.add_sub_cancel, List.cons.injEq, true_and]
    apply List.ext_getElem
    · simp
    · intro n h1 h2
      simp

theorem commandsAfter_length_not_lt (l : List Point) :
    ∀ prev : Option Point,
      (commandsAfter prev l).length =
        (l.filter (fun p => !Value.lt p.x (num (1 / 2)))).length := by
  induction l with
  | nil => intro prev; rfl
  | cons p rest ih =>
    intro prev
    rw [commandsAfter, List.length_append, ih (some p), List.filter_cons]
    unfold commandAfter
    cases hlt : Value.lt p.x (num (1 / 2))
    · simp [Option.toList]
      omega
    · simp [Option.toList]

theorem naiveCommands_length (l : List Point) :
    (naiveCommands l).length =
      (l.filter (fun p => Value.ge p.x (num (1 / 2)))).length := by
  unfold naiveCommands
  cases l.filter (fun p => Value.ge p.x (num (1 / 2))) <;> simp

/-- C10 (as amended): when the records matching the Selection all carry a
finite `x`, the VisibleCurve returned by `getCurrentPoints` is sorted
ascending by `x`, and if it has a point with `x >= 0.5` the commands built
by `pathData` on it are those of the naive mapper: one `M`, on the first
command, `L` on every other one, and the same path text. -/
theorem visibleCurve_path_eq_naive (numToString : Value → String) (s : State)
    (data : List Point) (nu uInf : Value)
    (hdata : s.data = some data) (hnu : s.nu = some nu) (hu : s.uInf = some uInf)
    (hx : ∀ p ∈ data, matchesSelection nu uInf p = true → p.x.isFinite = true)
    (hex : ∃ p ∈ getCurrentPoints s, Value.ge p.x (num (1 / 2)) = true) :
    (getCurrentPoints s).Pairwise (fun a b => Value.le a.x b.x = true) ∧
      pathCommands (getCurrentPoints s) = naiveCommands (getCurrentPoints s) ∧
      (pathCommands (getCurrentPoints s)).map (fun c => c.marker) =
        Marker.M ::
          List.replicate ((pathCommands (getCurrentPoints s)).length - 1) Marker.L ∧
      pathData numToString (getCurrentPoints s) =
        jsJoin " " ((naiveCommands (getCurrentPoints s)).map (Command.render numToString)) := by
  have hsorted : (getCurrentPoints s).Pairwise (fun a b => Value.le a.x b.x = true) := by
    rw [getCurrentPoints_loaded s data nu uInf hdata hnu hu]
    exact selection_sorted data nu uInf
      (fun p hp hm => Value.isNumber_of_isFinite (hx p hp hm))
  exact ⟨hsorted,
    pathCommands_sorted_eq_naive numToString (getCurrentPoints s)
      (List.Pairwise.chain' hsorted) hex⟩

theorem clippedCurve_current :
    getCurrentPoints (loadedState clippedCurve) = clippedCurve := by
  simp [getCurrentPoints, loadedState, clippedCurve, pointAt, matchesSelection, jsSort,
    insertSorted, sortCompare, Value.sub, Value.abs, Value.lt, Value.gt, Value.toNumber, epsilon]
  norm_num

/-- Witness for C10: `clippedCurve` under the Selection `(1, 1)`. -/
theorem visibleCurve_path_eq_naive_witness :
    (∀ p ∈ clippedCurve, matchesSelection (num 1) (num 1) p = true → p.x.isFinite = true) ∧
      (∃ p ∈ getCurrentPoints (loadedState clippedCurve),
        Value.ge p.x (num (1 / 2)) = true) ∧
      (getCurrentPoints (loadedState clippedCurve)).Pairwise
        (fun a b => Value.le a.x b.x = true) ∧
      pathCommands (getCurrentPoints (loadedState clippedCurve)) =
        naiveCommands (getCurrentPoints (loadedState clippedCurve)) ∧
      (pathCommands (getCurrentPoints (loadedState clippedCurve))).map (fun c => c.marker) =
        Marker.M ::
          List.replicate
            ((pathCommands (getCurrentPoints (loadedState clippedCurve))).length - 1)
            Marker.L ∧
      pathData (fun _ => "0") (getCurrentPoints (loadedState clippedCurve)) =
        jsJoin " "
          ((naiveCommands (getCurrentPoints (loadedState clippedCurve))).map
            (Command.render (fun _ => "0"))) :=
  have hx : ∀ p ∈ clippedCurve, matchesSelection (num 1) (num 1) p = true →
      p.x.isFinite = true := by
    intro p hp _
    simp [clippedCurve, pointAt] at hp
    rcases hp with rfl | rfl | rfl <;> rfl
  have hex : ∃ p ∈ getCurrentPoints (loadedState clippedCurve),
      Value.ge p.x (num (1 / 2)) = true := by
    rw [clippedCurve_current]
    exact ⟨pointAt (num 1), by simp [clippedCurve],
      by simp [pointAt, Value.ge, Value.le, Value.toNumber]; norm_num⟩
  ⟨hx, hex,
    visibleCurve_path_eq_naive (fun _ => "0") (loadedState clippedCurve) clippedCurve
      (num 1) (num 1) rfl rfl rfl hx hex⟩

theorem nanClippedCurve_current :
    getCurrentPoints (loadedState nanClippedCurve) = nanClippedCurve := by
  have hfilter : nanClippedCurve.filter (matchesSelection (num 1) (num 1)) =
      nanClippedCurve := by
    simp [nanClippedCurve, pointAt, matchesSelection, Value.sub, Value.abs, Value.lt,
      Value.toNumber, epsilon]
  rw [getCurrentPoints_loaded (loadedState nanClippedCurve) nanClippedCurve (num 1) (num 1)
    rfl rfl rfl, hfilter]
  have h0 : insertSorted (sortCompare (fun _ => false) fun a b : Point => Value.sub a.x b.x)
      (pointAt (num 1)) [] = [pointAt (num 1)] := rfl
  have h1 : insertSorted (sortCompare (fun _ => false) fun a b : Point => Value.sub a.x b.x)
      (pointAt (num (1 / 4))) [pointAt (num 1)] =
      [pointAt (num (1 / 4)), pointAt (num 1)] := by
    rw [insertSorted, pointCompare_gt]
    simp [pointAt, Value.lt, Value.toNumber]
    norm_num
  have h2 : insertSorted (sortCompare (fun _ => false) fun a b : Point => Value.sub a.x b.x)
      (pointAt nan) [pointAt (num (1 / 4)), pointAt (num 1)] =
      [pointAt nan, pointAt (num (1 / 4)), pointAt (num 1)] := by
    rw [insertSorted, pointCompare_gt]
    simp [pointAt, Value.lt, Value.toNumber]
  simp only [nanClippedCurve, jsSort]
  rw [h0, h1, h2]

theorem nanSplitCurve_current :
    getCurrentPoints (loadedState nanSplitCurve) = nanSplitCurve := by
  have hfilter : nanSplitCurve.filter (matchesSelection (num 1) (num 1)) = nanSplitCurve := by
    simp [nanSplitCurve, pointAt, matchesSelection, Value.sub, Value.abs, Value.lt,
      Value.toNumber, epsilon]
  rw [getCurrentPoints_loaded (loadedState nanSplitCurve) nanSplitCurve (num 1) (num 1)
    rfl rfl rfl, hfilter]
  have h0 : insertSorted (sortCompare (fun _ => false) fun a b : Point => Value.sub a.x b.x)
      (pointAt (num 5)) [] = [pointAt (num 5)] := rfl
  have h1 : insertSorted (sortCompare (fun _ => false) fun a b : Point => Value.sub a.x b.x)
      (pointAt (num (1 / 4))) [pointAt (num 5)] =
      [pointAt (num (1 / 4)), pointAt (num 5)] := by
    rw [insertSorted, pointCompare_gt]
    simp [pointAt, Value.lt, Value.toNumber]
    norm_num
  have h2 : insertSorted (sortCompare (fun _ => false) fun a b : Point => Value.sub a.x b.x)
      (pointAt nan) [pointAt (num (1 / 4)), pointAt (num 5)] =
      [pointAt nan, pointAt (num (1 / 4)), pointAt (num 5)] := by
    rw [insertSorted, pointCompare_gt]
    simp [pointAt, Value.lt, Value.toNumber]
  have h3 : insertSorted (sortCompare (fun _ => false) fun a b : Point => Value.sub a.x b.x)
      (pointAt (num 2)) [pointAt nan, pointAt (num (1 / 4)), pointAt (num 5)] =
      [pointAt (num 2), pointAt nan, pointAt (num (1 / 4)), pointAt (num 5)] := by
    rw [insertSorted, pointCompare_gt]
    simp [pointAt, Value.lt, Value.toNumber]
  simp only [nanSplitCurve, jsSort]
  rw [h0, h1, h2, h3]

/-- C10 fails as stated: with the three rows of `nanClippedCurve` selected
(`x = NaN`, `0.25`, `1`), `getCurrentPoints` returns them in that order, the
curve has a point with `x >= 0.5`, and the path carries two `M`: one for the
`NaN` point and one for `x = 1`, whose predecessor has `x < 0.5`.  In
whatever order the three rows come, the path has two commands where the
naive mapper has one.  With the four rows of `nanSplitCurve` (`x = 2`,
`NaN`, `0.25`, `5`), which also come back in that order, the two points with
`x >= 0.5` each carry `M`. -/
theorem visibleCurve_nan_two_moves :
    getCurrentPoints (loadedState nanClippedCurve) = nanClippedCurve ∧
      (∃ p ∈ getCurrentPoints (loadedState nanClippedCurve),
        Value.ge p.x (num (1 / 2)) = true) ∧
      (pathCommands (getCurrentPoints (loadedState nanClippedCurve))).map
        (fun c => c.marker) = [Marker.M, Marker.M] ∧
      (∀ l : List Point, l.Perm nanClippedCurve →
        (pathCommands l).length = 2 ∧ (naiveCommands l).length = 1) ∧
      getCurrentPoints (loadedState nanSplitCurve) = nanSplitCurve ∧
      (pathCommands (getCurrentPoints (loadedState nanSplitCurve))).map
        (fun c => (c.marker, c.x)) =
        [(Marker.M, scaleX (num 2)), (Marker.L, nan), (Marker.M, scaleX (num 5))] := by
  refine ⟨nanClippedCurve_current, ?_, ?_, ?_, nanSplitCurve_current, ?_⟩
  · rw [nanClippedCurve_current]
    exact ⟨pointAt (num 1), by simp [nanClippedCurve],
      by simp [pointAt, Value.ge, Value.le, Value.toNumber]; norm_num⟩
  · rw [nanClippedCurve_current, pathCommands_eq_commandsAfter]
    simp [nanClippedCurve, commandsAfter, commandAfter, pointAt, Value.lt, Value.toNumber]
    norm_num
  · intro l hl
    constructor
    · rw [pathCommands_eq_commandsAfter, commandsAfter_length_not_lt,
        (hl.filter _).length_eq]
      simp [nanClippedCurve, pointAt, Value.lt, Value.toNumber, List.filter_cons]
      norm_num
    · rw [naiveCommands_length, (hl.filter _).length_eq]
      simp [nanClippedCurve, pointAt, Value.ge, Value.le, Value.toNumber, List.filter_cons]
      norm_num
  · rw [nanSplitCurve_current, pathCommands_eq_commandsAfter]
    simp [nanSplitCurve, commandsAfter, commandAfter, pointAt, Value.lt, Value.toNumber,
      scaleX_nan]
    norm_num

/-! ## DerivedMetrics -/

theorem lastPoint_eq_getLast? (l : List Point) :
    (if l.length > 0 then l.get? (l.length - 1) else none) = l.getLast? := by
  cases l with
  | nil => rfl
  | cons a t =>
    rw [if_pos (by simp), List.get?_eq_getElem?, List.getLast?_eq_getElem?]

theorem currentRe_eq (s : State) :
    currentRe s =
      match (getCurrentPoints s).getLast?, s.nu, s.uInf with
      | some lastPoint, some nu, some uInf =>
          ReValue.number (Value.div (Value.mul uInf lastPoint.x) nu)
      | _, _, _ => ReValue.na := by
  unfold currentRe
  simp only [lastPoint_eq_getLast?]

theorem pairwise_le_getLast {α : Type} (r : α → α → Prop) (l : List α) (last : α)
    (hp : l.Pairwise r) (hl : l.getLast? = some last) :
    ∀ p ∈ l, p = last ∨ r p last := by
  obtain ⟨init, rfl⟩ := List.getLast?_eq_some_iff.mp hl
  intro p hpm
  rw [List.pairwise_append] at hp
  rcases List.mem_append.mp hpm with h1 | h2
  · exact Or.inr (hp.2.2 p h1 last (List.mem_singleton_self _))
  · exact Or.inl (List.mem_singleton.mp h2)

/-- C3 (as amended): for a loaded Dataset and a Selection: when the
VisibleCurve is empty, `currentRe` is `'N/A'`, which is not the number `0`;
when it is non-empty with last element `last` and `nu` is not `0`,
`currentRe` is the Number `uInf * last.x / nu` (the stored `re_x` plays no
part), and, when the matching records all carry a finite `x`, `last.x` is
at least the `x` of every point of the curve. -/
theorem currentRe_last_point (s : State) (data : List Point) (nu uInf : Value)
    (hdata : s.data = some data) (hnu : s.nu = some nu) (hu : s.uInf = some uInf) :
    (getCurrentPoints s = [] → currentRe s = ReValue.na) ∧
      (∀ last : Point, (getCurrentPoints s).getLast? = some last → nu ≠ num 0 →
        currentRe s = ReValue.number (Value.div (Value.mul uInf last.x) nu) ∧
          ((∀ p ∈ data, matchesSelection nu uInf p = true → p.x.isFinite = true) →
            ∀ p ∈ getCurrentPoints s, Value.le p.x last.x = true)) ∧
      ReValue.na ≠ ReValue.number (num 0) := by
  refine ⟨?_, ?_, by simp⟩
  · intro hnil
    rw [currentRe_eq, hnil]
    rfl
  · intro last hlast _
    have hre : currentRe s = ReValue.number (Value.div (Value.mul uInf last.x) nu) := by
      rw [currentRe_eq, hlast, hnu, hu]
    have hcur := getCurrentPoints_loaded s data nu uInf hdata hnu hu
    have hperm : (getCurrentPoints s).Perm (data.filter (matchesSelection nu uInf)) := by
      rw [hcur]; exact jsSort_perm _ _ _
    have hmemAll : ∀ p ∈ getCurrentPoints s,
        p ∈ data ∧ matchesSelection nu uInf p = true := by
      intro p hp
      exact List.mem_filter.mp (hperm.subset hp)
    refine ⟨hre, ?_⟩
    intro hx p hp
    have hxn : ∀ q ∈ data, matchesSelection nu uInf q = true → q.x.isNumber = true :=
      fun q hq hm => Value.isNumber_of_isFinite (hx q hq hm)
    have hsorted : (getCurrentPoints s).Pairwise (fun a b => Value.le a.x b.x = true) := by
      rw [hcur]
      exact selection_sorted data nu uInf hxn
    rcases pairwise_le_getLast _ _ last hsorted hlast p hp with rfl | h
    · have hn := hxn p (hmemAll p hp).1 (hmemAll p hp).2
      rcases Value.le_or_le hn hn with h | h <;> exact h
    · exact h

theorem tiedCurve_current :
    getCurrentPoints (loadedState tiedCurve) =
      [{ pointAt (num 1) with delta99 := roundDouble (1 / 5) }, pointAt (num 1), pointAt (num 2)] := by
  simp [getCurrentPoints, loadedState, tiedCurve, pointAt, matchesSelection, jsSort,
    insertSorted, sortCompare, Value.sub, Value.abs, Value.lt, Value.gt, Value.toNumber, epsilon]

/-- Witness for C3: the curve `tiedCurve` under the Selection `(1, 1)` ends
at `x = 2`. -/
theorem currentRe_last_point_witness :
    (∀ p ∈ tiedCurve, matchesSelection (num 1) (num 1) p = true → p.x.isFinite = true) ∧
      (getCurrentPoints (loadedState tiedCurve)).getLast? = some (pointAt (num 2)) ∧
      (num 1 : Value) ≠ num 0 ∧
      currentRe (loadedState tiedCurve) =
        ReValue.number (Value.div (Value.mul (num 1) (pointAt (num 2)).x) (num 1)) ∧
      (∀ p ∈ getCurrentPoints (loadedState tiedCurve),
        Value.le p.x (pointAt (num 2)).x = true) :=
  have hx : ∀ p ∈ tiedCurve, matchesSelection (num 1) (num 1) p = true →
      p.x.isFinite = true := by
    intro p hp _
    simp [tiedCurve, pointAt] at hp
    rcases hp with rfl | rfl | rfl <;> rfl
  have hlast : (getCurrentPoints (loadedState tiedCurve)).getLast? = some (pointAt (num 2)) := by
    rw [tiedCurve_current]; rfl
  have hnz : (num 1 : Value) ≠ num 0 := by simp
  have h := (currentRe_last_point (loadedState tiedCurve) tiedCurve (num 1) (num 1)
    rfl rfl rfl).2.1 (pointAt (num 2)) hlast hnz
  ⟨hx, hlast, hnz, h.1, h.2 hx⟩

/-- C3 fails as stated: with the two rows of `nanCurve` selected (`nu = 1`),
the VisibleCurve holds both rows, and whichever point comes last, the row
with `x = NaN` does not have an `x` at most that of the last point: no last
element carries the maximum `x`. -/
theorem currentRe_nan_last_not_max :
    (getCurrentPoints (loadedState nanCurve)).Perm nanCurve ∧
      ∀ last : Point, ∃ p ∈ getCurrentPoints (loadedState nanCurve),
        Value.le p.x last.x = false := by
  have hperm : (getCurrentPoints (loadedState nanCurve)).Perm nanCurve := by
    have h := (getCurrentPoints_loaded (loadedState nanCurve) nanCurve (num 1) (num 1)
      rfl rfl rfl)
    rw [h]
    refine (jsSort_perm _ _ _).trans ?_
    simp [nanCurve, pointAt, matchesSelection, Value.sub, Value.abs, Value.lt,
      Value.toNumber, epsilon]
  refine ⟨hperm, ?_⟩
  intro last
  refine ⟨pointAt nan, hperm.symm.subset (by simp [nanCurve]), ?_⟩
  simp [pointAt, Value.le, Value.toNumber]

end BoundaryLayer
